import Mathlib

/-!
Verification development for the OCR error-correction pipeline of the
image-to-question backend.  The definitions below are a shallow embedding of
`src/services/ultimate_ocr_service.py` (class `UltimateOCRService`) and of the
candidate-scoring loop of `src/services/ocr_service.py`.

Strings are modelled as Lean `String` (a list of characters); each Python
`re.sub` call is embedded as a dedicated left-to-right scanning rewriter.  The
scan mirrors `re.sub` semantics: positions are tried left to right, a match
consumes its span, the replacement is emitted, and scanning resumes right
after the consumed span; lookbehind (`(?<!..)`) and word-boundary (`\b`)
tests inspect the last character of the original text before the current
position.  Character classes are the ASCII fragment of the Python ones
(`\w`, `\s`, `[a-z]`, `[A-Z]`, `str.strip`, `str.isalnum`), which is faithful
on all inputs used here and on all ASCII text.
-/

set_option maxRecDepth 16000

namespace UltimateOCR

/-- ASCII fragment of the regex class `\w`: letters, digits and underscore. -/
def isWordChar (c : Char) : Bool := c.isAlphanum || c == '_'

/-- ASCII fragment of the regex class `\s` and of Python `str.strip`'s default
whitespace: space, tab, newline, carriage return, vertical tab, form feed. -/
def pyIsSpace (c : Char) : Bool :=
  c == ' ' || c == '\t' || c == '\n' || c == '\r' || c == '\x0b' || c == '\x0c'

/-- Sentence-terminal punctuation, the class `[.!?]`. -/
def isTermPunct (c : Char) : Bool := c == '.' || c == '!' || c == '?'

/-- The punctuation class `[.,!?;:]` used throughout the service. -/
def isPunct6 (c : Char) : Bool :=
  c == '.' || c == ',' || c == '!' || c == '?' || c == ';' || c == ':'

/-- Case-insensitive character comparison (regex `re.IGNORECASE`). -/
def ciEq (a b : Char) : Bool := a.toLower == b.toLower

/-- Result of one successful pattern match: the replacement text to emit, the
last character of the consumed span of the original text (the lookbehind
context for the next scan position), and the remaining input. -/
structure MatchRes where
  rep : List Char
  lastc : Char
  rest : List Char

/-- A matcher receives the character just before the current position (none at
the start of the string) and the remaining input, and reports a match at the
current position, if any. -/
def Matcher : Type := Option Char → List Char → Option MatchRes

/-- Left-to-right `re.sub` scan: at each position try the matcher; on a match
emit the replacement and resume after the consumed span, otherwise emit the
current character and advance one position.  Fuel is an upper bound on the
number of steps; callers pass `length + 1`, which always suffices because
every step consumes at least one character. -/
def reSub (m : Matcher) : Nat → Option Char → List Char → List Char
  | 0, _, l => l
  | _ + 1, _, [] => []
  | fuel + 1, prev, c :: cs =>
    match m prev (c :: cs) with
    | some r => r.rep ++ reSub m fuel (some r.lastc) r.rest
    | none => c :: reSub m fuel (some c) cs

/-- Run one `re.sub` pass over a character list. -/
def runSubL (m : Matcher) (l : List Char) : List Char :=
  reSub m (l.length + 1) none l

/-- Did the previous character exist and belong to `\w`? (`\b` test helper). -/
def wordBefore : Option Char → Bool
  | none => false
  | some c => isWordChar c

/-- Did the previous character exist and is it a digit? (`(?<![0-9])` test). -/
def digitBefore : Option Char → Bool
  | none => false
  | some c => c.isDigit

/-- Is the head of the remaining input a `\w` character? (`\b` test helper). -/
def headIsWord : List Char → Bool
  | [] => false
  | c :: _ => isWordChar c

/-- Is the head of the remaining input a digit? (`(?![0-9])` test). -/
def headIsDigit : List Char → Bool
  | [] => false
  | c :: _ => c.isDigit

/-- Match a literal word case-insensitively; returns the matched characters
(as they appear in the input, for `\1` back-references) and the rest. -/
def ciTake : List Char → List Char → Option (List Char × List Char)
  | [], l => some ([], l)
  | _ :: _, [] => none
  | p :: ps, c :: cs =>
    if ciEq p c then (ciTake ps cs).map (fun x => (c :: x.1, x.2)) else none

/-- Match a literal word case-sensitively; returns the rest on success. -/
def litTake : List Char → List Char → Option (List Char)
  | [], l => some l
  | _ :: _, [] => none
  | p :: ps, c :: cs => if c == p then litTake ps cs else none

/-- Python `str.strip()` on a character list. -/
def stripList (l : List Char) : List Char :=
  ((l.dropWhile pyIsSpace).reverse.dropWhile pyIsSpace).reverse

/-- Python `str.strip()`. -/
def pyStrip (s : String) : String := ⟨stripList s.data⟩

/-! ### Stage 1 — `fix_character_substitutions` (lines 161-169)

Applies the two `char_patterns` from `__init__` (lines 45-49), in order:
`\b0\b -> "O"` and `\| -> "I"`. -/

/-- Matcher for `\b0\b`: a standalone zero, i.e. a `0` with no `\w` character
on either side. -/
def mStandaloneZero : Matcher := fun prev l =>
  match l with
  | [] => none
  | c :: cs =>
    if c == '0' && !wordBefore prev && !headIsWord cs then
      some ⟨['O'], c, cs⟩
    else none

/-- Matcher for `\|`: every pipe becomes the letter `I`. -/
def mPipe : Matcher := fun _ l =>
  match l with
  | [] => none
  | c :: cs => if c == '|' then some ⟨['I'], c, cs⟩ else none

/-- Stage 1 of the pipeline, `fix_character_substitutions`. -/
def fix_character_substitutions (s : String) : String :=
  ⟨runSubL mPipe (runSubL mStandaloneZero s.data)⟩

/-! ### Stage 2 — `fix_severe_distortions` (lines 171-194)

Seven `re.sub` passes with `re.IGNORECASE`: the four standalone-digit
substitutions `(?<![0-9])0(?![0-9]) -> O`, `1 -> l`, `5 -> S`, `8 -> B`;
the repeated-character collapse `(.)\1{2,} -> \1\1` (whose back-reference is
case-insensitive under the flag); and the two punctuation-spacing fixes
`(\w)\s+([.,!?;:]) -> \1\2` and `([.,!?;:])\s+(\w) -> \1 \2`. -/

/-- Matcher for `(?<![0-9])d(?![0-9])` replaced by `r`: a digit `d` with no
digit on either side. -/
def mLoneDigit (d r : Char) : Matcher := fun prev l =>
  match l with
  | [] => none
  | c :: cs =>
    if c == d && !digitBefore prev && !headIsDigit cs then
      some ⟨[r], c, cs⟩
    else none

/-- Matcher for `(.)\1{2,} -> \1\1` under `re.IGNORECASE`: a character other
than newline followed by two or more case-insensitive copies of itself; the
whole (maximal, since `{2,}` is greedy) run collapses to two copies of the
first character. -/
def mRepeatRun : Matcher := fun _ l =>
  match l with
  | [] => none
  | c :: cs =>
    if c == '\n' then none
    else
      let run := cs.takeWhile (fun d => ciEq d c)
      if 2 ≤ run.length then
        some ⟨[c, c], run.getLastD c, cs.dropWhile (fun d => ciEq d c)⟩
      else none

/-- Matcher for `(\w)\s+([.,!?;:]) -> \1\2`: drop whitespace between a word
character and a following punctuation mark. -/
def mWordWsPunct : Matcher := fun _ l =>
  match l with
  | [] => none
  | c :: cs =>
    if isWordChar c then
      let ws := cs.takeWhile pyIsSpace
      if 1 ≤ ws.length then
        match cs.dropWhile pyIsSpace with
        | p :: rest => if isPunct6 p then some ⟨[c, p], p, rest⟩ else none
        | [] => none
      else none
    else none

/-- Matcher for `([.,!?;:])\s+(\w) -> \1 \2`: normalize the whitespace after a
punctuation mark, before a word character, to one space. -/
def mPunctWsWord : Matcher := fun _ l =>
  match l with
  | [] => none
  | c :: cs =>
    if isPunct6 c then
      let ws := cs.takeWhile pyIsSpace
      if 1 ≤ ws.length then
        match cs.dropWhile pyIsSpace with
        | w :: rest => if isWordChar w then some ⟨[c, ' ', w], w, rest⟩ else none
        | [] => none
      else none
    else none

/-- Stage 2 of the pipeline, `fix_severe_distortions`, on lists. -/
def fixSevereL (l : List Char) : List Char :=
  runSubL mPunctWsWord (runSubL mWordWsPunct (runSubL mRepeatRun
    (runSubL (mLoneDigit '8' 'B') (runSubL (mLoneDigit '5' 'S')
      (runSubL (mLoneDigit '1' 'l') (runSubL (mLoneDigit '0' 'O') l))))))

/-- Stage 2 of the pipeline, `fix_severe_distortions`. -/
def fix_severe_distortions (s : String) : String := ⟨fixSevereL s.data⟩

/-! ### Stage 3 — `fix_repeated_words` (lines 196-219)

Eight case-insensitive passes collapsing repeats of specific short words
(`the the the`, `the the`, `and and`, `of of`, `to to`, `is is`, `are are`,
`was was`), then the two generic passes `\b(\w+)\s+\1\s+\1\b -> \1` and
`\b(\w+)\s+\1\b -> \1`, all replacing by the first occurrence as matched.

For the generic patterns, `\w+` necessarily captures the entire maximal run
of word characters at the match position: a shorter capture would have to be
followed by `\s+`, but the next character of the run is a word character,
which is not whitespace; `\s+` and the fixed-length back-references admit no
other backtracking, so the deterministic matchers below are exact. -/

/-- Matcher for `\b(w)\s+(w)\b -> \1` for a fixed word `w`, case-insensitive:
the word, whitespace, the word again, with word boundaries at both ends; the
replacement is the first occurrence as it appeared. -/
def mPairWord (w : List Char) : Matcher := fun prev l =>
  if wordBefore prev then none
  else
    match ciTake w l with
    | none => none
    | some (m1, r1) =>
      let ws := r1.takeWhile pyIsSpace
      if 1 ≤ ws.length then
        match ciTake w (r1.dropWhile pyIsSpace) with
        | none => none
        | some (m2, r2) =>
          if headIsWord r2 then none else some ⟨m1, m2.getLastD ' ', r2⟩
      else none

/-- Matcher for `\b(w)\s+(w)\s+(w)\b -> \1` for a fixed word `w`,
case-insensitive. -/
def mTripleWord (w : List Char) : Matcher := fun prev l =>
  if wordBefore prev then none
  else
    match ciTake w l with
    | none => none
    | some (m1, r1) =>
      let ws := r1.takeWhile pyIsSpace
      if 1 ≤ ws.length then
        match ciTake w (r1.dropWhile pyIsSpace) with
        | none => none
        | some (_, r2) =>
          let ws2 := r2.takeWhile pyIsSpace
          if 1 ≤ ws2.length then
            match ciTake w (r2.dropWhile pyIsSpace) with
            | none => none
            | some (m3, r3) =>
              if headIsWord r3 then none else some ⟨m1, m3.getLastD ' ', r3⟩
          else none
      else none

/-- Matcher for the generic `\b(\w+)\s+\1\b -> \1` (case-insensitive). -/
def mGenPair : Matcher := fun prev l =>
  if wordBefore prev then none
  else
    let w := l.takeWhile isWordChar
    if 1 ≤ w.length then
      let r1 := l.dropWhile isWordChar
      let ws := r1.takeWhile pyIsSpace
      if 1 ≤ ws.length then
        match ciTake w (r1.dropWhile pyIsSpace) with
        | none => none
        | some (m2, r2) =>
          if headIsWord r2 then none else some ⟨w, m2.getLastD ' ', r2⟩
      else none
    else none

/-- Matcher for the generic `\b(\w+)\s+\1\s+\1\b -> \1` (case-insensitive). -/
def mGenTriple : Matcher := fun prev l =>
  if wordBefore prev then none
  else
    let w := l.takeWhile isWordChar
    if 1 ≤ w.length then
      let r1 := l.dropWhile isWordChar
      let ws := r1.takeWhile pyIsSpace
      if 1 ≤ ws.length then
        match ciTake w (r1.dropWhile pyIsSpace) with
        | none => none
        | some (_, r2) =>
          let ws2 := r2.takeWhile pyIsSpace
          if 1 ≤ ws2.length then
            match ciTake w (r2.dropWhile pyIsSpace) with
            | none => none
            | some (m3, r3) =>
              if headIsWord r3 then none else some ⟨w, m3.getLastD ' ', r3⟩
          else none
      else none
    else none

/-- Stage 3 of the pipeline, `fix_repeated_words`, on lists. -/
def fixRepeatedL (l : List Char) : List Char :=
  runSubL mGenPair (runSubL mGenTriple
    (runSubL (mPairWord ['w', 'a', 's']) (runSubL (mPairWord ['a', 'r', 'e'])
      (runSubL (mPairWord ['i', 's']) (runSubL (mPairWord ['t', 'o'])
        (runSubL (mPairWord ['o', 'f']) (runSubL (mPairWord ['a', 'n', 'd'])
          (runSubL (mPairWord ['t', 'h', 'e'])
            (runSubL (mTripleWord ['t', 'h', 'e']) l)))))))))

/-- Stage 3 of the pipeline, `fix_repeated_words`. -/
def fix_repeated_words (s : String) : String := ⟨fixRepeatedL s.data⟩

/-! ### Stage 4 — `fix_broken_merged_words` (lines 221-248)

Ten case-sensitive passes: `([a-z])([A-Z]) -> \1 \2`; the literal merges
`ifyou`, `Ifyou`, `youare`, `yearsago`, `forentrepreneurs`, `itis`; the
capitalizing pass `([.!?])\s*([a-z])` replaced by the punctuation mark, a
space and the upper-cased letter; `\s+([.,!?;:]) -> \1`; and
`([.,!?;:])\s* -> "\1 "` (note `\s*` can match zero characters, so this last
pass puts a space after every occurrence of the punctuation mark). -/

/-- Matcher for `([a-z])([A-Z]) -> \1 \2`. -/
def mLowerUpper : Matcher := fun _ l =>
  match l with
  | a :: b :: rest =>
    if a.isLower && b.isUpper then some ⟨[a, ' ', b], b, rest⟩ else none
  | _ => none

/-- Matcher replacing a case-sensitive literal `pat` by `rep`. -/
def mLit (pat rep : List Char) : Matcher := fun _ l =>
  match litTake pat l with
  | some rest => some ⟨rep, pat.getLastD ' ', rest⟩
  | none => none

/-- Matcher for `([.!?])\s*([a-z])` replaced by the punctuation, one space and
the letter upper-cased (the `lambda` replacement at line 235 and 471). -/
def mPunctCapNext : Matcher := fun _ l =>
  match l with
  | [] => none
  | p :: rest =>
    if isTermPunct p then
      match rest.dropWhile pyIsSpace with
      | d :: rest2 => if d.isLower then some ⟨[p, ' ', d.toUpper], d, rest2⟩ else none
      | [] => none
    else none

/-- Matcher for `\s+([.,!?;:]) -> \1`. -/
def mWsPunct : Matcher := fun _ l =>
  match l with
  | [] => none
  | c :: _ =>
    if pyIsSpace c then
      match l.dropWhile pyIsSpace with
      | p :: rest => if isPunct6 p then some ⟨[p], p, rest⟩ else none
      | [] => none
    else none

/-- Matcher for `([.,!?;:])\s* -> "\1 "`. -/
def mPunctPad : Matcher := fun _ l =>
  match l with
  | [] => none
  | p :: rest =>
    if isPunct6 p then
      some ⟨[p, ' '], (rest.takeWhile pyIsSpace).getLastD p, rest.dropWhile pyIsSpace⟩
    else none

/-- Stage 4 of the pipeline, `fix_broken_merged_words`, on lists. -/
def fixBrokenL (l : List Char) : List Char :=
  runSubL mPunctPad (runSubL mWsPunct (runSubL mPunctCapNext
    (runSubL (mLit "itis".data "it is".data)
      (runSubL (mLit "forentrepreneurs".data "for entrepreneurs".data)
        (runSubL (mLit "yearsago".data "years ago".data)
          (runSubL (mLit "youare".data "you are".data)
            (runSubL (mLit "Ifyou".data "If you".data)
              (runSubL (mLit "ifyou".data "if you".data)
                (runSubL mLowerUpper l)))))))))

/-- Stage 4 of the pipeline, `fix_broken_merged_words`. -/
def fix_broken_merged_words (s : String) : String := ⟨fixBrokenL s.data⟩

/-! ### Stage 5 — `fix_verb_tenses` (lines 250-265)

Three case-insensitive whole-word passes: `\bmak\b -> make`,
`\bwas\b -> was`, `\bwere\b -> were`.  Under `re.IGNORECASE` the latter two
are not no-ops: they rewrite any capitalization of the word to the lowercase
literal replacement. -/

/-- Matcher for a case-insensitive whole word `w` replaced by the literal
`rep`. -/
def mWordCI (w rep : List Char) : Matcher := fun prev l =>
  if wordBefore prev then none
  else
    match ciTake w l with
    | none => none
    | some (m1, rest) =>
      if headIsWord rest then none else some ⟨rep, m1.getLastD ' ', rest⟩

/-- Stage 5 of the pipeline, `fix_verb_tenses`, on lists. -/
def fixVerbL (l : List Char) : List Char :=
  runSubL (mWordCI "were".data "were".data)
    (runSubL (mWordCI "was".data "was".data)
      (runSubL (mWordCI "mak".data "make".data) l))

/-- Stage 5 of the pipeline, `fix_verb_tenses`. -/
def fix_verb_tenses (s : String) : String := ⟨fixVerbL s.data⟩

/-! ### Stage 6 — `clean_punctuation_symbols` (lines 267-286)

Eight passes followed by `str.strip()`: `[\s]+ -> " "`; the quote class
(`"` and backtick) to `"`; the apostrophe class (ASCII `'` in the source) to
`'`; bracket removal `[\[\]{}<>] -> ""`; `\s*([.,!?;:])\s* -> "\1 "`;
`([.,!?;:])\s*([a-z]) -> \1 \2`; `\s*\(\s* -> " ("`; `\s*\)\s* -> ") "`. -/

/-- Matcher for `[\s]+ -> " "`: a maximal whitespace run becomes one space. -/
def mWsRun : Matcher := fun _ l =>
  match l with
  | [] => none
  | c :: _ =>
    if pyIsSpace c then
      some ⟨[' '], (l.takeWhile pyIsSpace).getLastD c, l.dropWhile pyIsSpace⟩
    else none

/-- Matcher for the quote class: `"` or a backtick becomes `"` (the curly
characters of the source class render as ASCII in the file). -/
def mQuote : Matcher := fun _ l =>
  match l with
  | [] => none
  | c :: cs => if c == '"' || c == '\x60' then some ⟨['"'], c, cs⟩ else none

/-- Matcher for the apostrophe class: `'` becomes `'` (a no-op pass; the
source class holds ASCII apostrophes). -/
def mApos : Matcher := fun _ l =>
  match l with
  | [] => none
  | c :: cs => if c == '\'' then some ⟨['\''], c, cs⟩ else none

/-- Matcher for `[\[\]{}<>] -> ""`: remove square/curly/angle brackets. -/
def mBrackets : Matcher := fun _ l =>
  match l with
  | [] => none
  | c :: cs =>
    if c == '[' || c == ']' || c == '\x7b' || c == '\x7d' || c == '<' || c == '>' then
      some ⟨[], c, cs⟩
    else none

/-- Matcher for `\s*([.,!?;:])\s* -> "\1 "`. -/
def mWsPunctWs : Matcher := fun _ l =>
  match l.dropWhile pyIsSpace with
  | p :: rest =>
    if isPunct6 p then
      some ⟨[p, ' '], (rest.takeWhile pyIsSpace).getLastD p, rest.dropWhile pyIsSpace⟩
    else none
  | [] => none

/-- Matcher for `([.,!?;:])\s*([a-z]) -> \1 \2`. -/
def mPunctWsLower : Matcher := fun _ l =>
  match l with
  | [] => none
  | p :: rest =>
    if isPunct6 p then
      match rest.dropWhile pyIsSpace with
      | d :: rest2 => if d.isLower then some ⟨[p, ' ', d], d, rest2⟩ else none
      | [] => none
    else none

/-- Matcher for `\s*\(\s* -> " ("`. -/
def mOpenParen : Matcher := fun _ l =>
  match l.dropWhile pyIsSpace with
  | p :: rest =>
    if p == '(' then
      some ⟨[' ', '('], (rest.takeWhile pyIsSpace).getLastD p, rest.dropWhile pyIsSpace⟩
    else none
  | [] => none

/-- Matcher for `\s*\)\s* -> ") "`. -/
def mCloseParen : Matcher := fun _ l =>
  match l.dropWhile pyIsSpace with
  | p :: rest =>
    if p == ')' then
      some ⟨[')', ' '], (rest.takeWhile pyIsSpace).getLastD p, rest.dropWhile pyIsSpace⟩
    else none
  | [] => none

/-- Stage 6 of the pipeline, `clean_punctuation_symbols`, on lists (before the
final `strip`). -/
def cleanPunctL (l : List Char) : List Char :=
  runSubL mCloseParen (runSubL mOpenParen (runSubL mPunctWsLower
    (runSubL mWsPunctWs (runSubL mBrackets (runSubL mApos
      (runSubL mQuote (runSubL mWsRun l)))))))

/-- Stage 6 of the pipeline, `clean_punctuation_symbols`. -/
def clean_punctuation_symbols (s : String) : String :=
  ⟨stripList (cleanPunctL s.data)⟩

/-! ### Stage 7 — `format_titles_and_paragraphs` (lines 288-360) -/

/-- Python `str.split()` with no separator: split on whitespace runs, dropping
empty pieces, on character lists. -/
def splitWsChunks (l : List Char) : List (List Char) :=
  let p := l.foldr
    (fun c acc =>
      if pyIsSpace c then
        if acc.1.isEmpty then ([], acc.2) else ([], acc.1 :: acc.2)
      else (c :: acc.1, acc.2))
    ([], [])
  if p.1.isEmpty then p.2 else p.1 :: p.2

/-- Python `str.split()` with no separator, producing strings. -/
def pyWords (s : String) : List String := (splitWsChunks s.data).map (⟨·⟩)

/-- Join a list of strings with a separator (Python `sep.join`). -/
def joinSep (sep : String) : List String → String
  | [] => ""
  | [a] => a
  | a :: b :: rest => a ++ sep ++ joinSep sep (b :: rest)

/-- Substring test: does `needle` occur contiguously inside `hay`?
(Python `needle in hay`.) -/
def hasSub (needle : List Char) : List Char → Bool
  | [] => needle.isEmpty
  | c :: cs => needle.isPrefixOf (c :: cs) || hasSub needle cs

/-- Python `needle in hay` on strings. -/
def containsStr (hay needle : String) : Bool := hasSub needle.data hay.data

/-- Python `str.lower()` (ASCII fragment). -/
def lowerStr (s : String) : String := ⟨s.data.map Char.toLower⟩

/-- The `title_keywords` list of line 303. -/
def title_keywords : List String :=
  ["models", "api", "service", "features", "supported", "available",
   "overview", "introduction"]

/-- The `content_indicators` list of line 304. -/
def content_indicators : List String :=
  ["supports", "provides", "offers", "enables", "allows", "helps", "can",
   "that", "for", "with"]

/-- Does `s` end with a `.`? (`str.endswith('.')`). -/
def endsWithDot (s : String) : Bool := s.data.getLast? == some '.'

/-- Does `s` end with `.`, `!` or `?` (`str.endswith(('.', '!', '?'))`)? -/
def endsWithTerm (s : String) : Bool :=
  match s.data.getLast? with
  | some c => isTermPunct c
  | none => false

/-- Python `s[0].upper() + s[1:]` (total: the empty string stays empty; the
source only applies it to a non-empty title). -/
def upperFirst (s : String) : String :=
  match s.data with
  | [] => s
  | c :: cs => ⟨c.toUpper :: cs⟩

/-- The candidate-split score of lines 310-330: for a split after `i` words,
+2 when a title keyword occurs in the lower-cased title side, +2 when one of
the first two words of the lower-cased content side is a content indicator,
+1 when `i ≤ 5`, and +3 when the word at the split position is itself a
content indicator. -/
def scoreAt (ws : List String) (i : Nat) : Nat :=
  let tp := joinSep " " (ws.take i)
  let cp := joinSep " " (ws.drop i)
  (if title_keywords.any (fun k => containsStr (lowerStr tp) k) then 2 else 0) +
  (if content_indicators.any (fun ind => ((pyWords (lowerStr cp)).take 2).contains ind)
    then 2 else 0) +
  (if i ≤ 5 then 1 else 0) +
  (if i < ws.length ∧ content_indicators.contains (lowerStr (ws.getD i ""))
    then 3 else 0)

/-- Candidate split positions `range(3, min(8, len(words)))` of line 310. -/
def candRange (ws : List String) : List Nat := List.range' 3 (min 8 ws.length - 3)

/-- One step of the best-split search of lines 332-334: strict improvement,
so the earliest position with the maximal score wins. -/
def bestStep (ws : List String) (b : Int × Int) (i : Nat) : Int × Int :=
  if (scoreAt ws i : Int) > b.1 then ((scoreAt ws i : Int), (i : Int)) else b

/-- The `(best_score, best_split)` pair computed by the loop of lines
310-334, starting from `(0, -1)`. -/
def searchBest (ws : List String) : Int × Int :=
  (candRange ws).foldl (bestStep ws) (0, -1)

/-- The accepted split of lines 337-354: rebuild title and content, append a
`.` to each when missing, capitalize the title's first letter, and join with
a blank line. -/
def spliceAt (ws : List String) (i : Nat) : String :=
  let title := pyStrip (joinSep " " (ws.take i))
  let content := pyStrip (joinSep " " (ws.drop i))
  let title := if !endsWithDot title then title ++ "." else title
  let content := if !endsWithDot content then content ++ "." else content
  upperFirst title ++ "\n\n" ++ content

/-- Stage 7 of the pipeline, `format_titles_and_paragraphs`: for more than 8
words, search for the best split in positions 3-7 and accept it when its
score is at least 3; otherwise (and for short text) just guarantee terminal
punctuation. -/
def format_titles_and_paragraphs (text : String) : String :=
  if text = "" then text
  else
    let ws := pyWords text
    if 8 < ws.length then
      let b := searchBest ws
      if 0 < b.2 ∧ 3 ≤ b.1 then spliceAt ws b.2.toNat
      else if !endsWithTerm text then text ++ "." else text
    else if !endsWithTerm text then text ++ "." else text

/-! ### Stage 8 — `fix_capitalization` (lines 362-420)

`fix_capitalization` splits on blank lines and maps `_capitalize_section`
over the stripped non-empty sections.  `_capitalize_section` (lines 383-420)
computes `sentences = re.split(r'([.!?])\s*', text)` and then iterates over
`sentences`; the body of that `for` loop ends with an unconditional
`return text` (line 420), and `re.split` always returns at least one element
(for the empty string it returns `['']`), so the first iteration returns the
argument unchanged and the capitalization logic of lines 390-459 is
unreachable.  The function is therefore the identity. -/

/-- The `_capitalize_section` method: the identity, because of the early
`return text` inside the first loop iteration (see above). -/
def capitalize_section (text : String) : String := text

/-- Split a character list on a fixed non-empty separator (Python
`str.split(sep)`), leftmost non-overlapping occurrences, keeping empties. -/
def splitOnList (sep : List Char) : Nat → List Char → List (List Char)
  | 0, l => [l]
  | _ + 1, [] => [[]]
  | fuel + 1, c :: cs =>
    match litTake sep (c :: cs) with
    | some rest =>
      [] :: splitOnList sep fuel rest
    | none =>
      match splitOnList sep fuel cs with
      | [] => [[c]]
      | h :: t => (c :: h) :: t

/-- Python `text.split('\n\n')`. -/
def splitNN (s : String) : List String :=
  (splitOnList ['\n', '\n'] (s.data.length + 1) s.data).map (⟨·⟩)

/-- Stage 8 of the pipeline, `fix_capitalization`: with a blank-line
title/content structure, strip each section, drop empty ones, apply
`_capitalize_section` to each and rejoin with blank lines; otherwise apply
`_capitalize_section` to the whole text. -/
def fix_capitalization (text : String) : String :=
  if text = "" then text
  else if containsStr text "\n\n" then
    joinSep "\n\n"
      ((((splitNN text).map pyStrip).filter (· ≠ "")).map capitalize_section)
  else capitalize_section text

/-! ### Stage 9 — `fix_ocr_grammar` (lines 461-484)

Four case-sensitive passes: `([.!?])([A-Z]) -> \1 \2`; the capitalizing
pass `([.!?])\s*([a-z])` (same lambda as stage 4); the literal
`Itis -> It is`; and `([a-z])([A-Z]) -> \1 \2`. -/

/-- Matcher for `([.!?])([A-Z]) -> \1 \2`. -/
def mPunctUpper : Matcher := fun _ l =>
  match l with
  | p :: d :: rest =>
    if isTermPunct p && d.isUpper then some ⟨[p, ' ', d], d, rest⟩ else none
  | _ => none

/-- Stage 9 of the pipeline, `fix_ocr_grammar`, on lists. -/
def fixGrammarL (l : List Char) : List Char :=
  runSubL mLowerUpper (runSubL (mLit "Itis".data "It is".data)
    (runSubL mPunctCapNext (runSubL mPunctUpper l)))

/-- Stage 9 of the pipeline, `fix_ocr_grammar`. -/
def fix_ocr_grammar (s : String) : String := ⟨fixGrammarL s.data⟩

/-! ### Stage 10 — `final_cleanup` (lines 486-527) -/

/-- The allow-list of `final_cleanup`'s removal pass
`[^a-zA-Z0-9\s.,!?;:\-\'"()\n] -> ""` (line 492). -/
def allowedFinal (c : Char) : Bool :=
  c.isAlpha || c.isDigit || pyIsSpace c || isPunct6 c ||
  c == '-' || c == '\'' || c == '"' || c == '(' || c == ')' || c == '\n'

/-- Matcher for `[ \t]+ -> " "` (the per-line spacing pass of line 499). -/
def mSpaceTabRun : Matcher := fun _ l =>
  match l with
  | [] => none
  | c :: _ =>
    if c == ' ' || c == '\t' then
      some ⟨[' '], (l.takeWhile (fun d => d == ' ' || d == '\t')).getLastD c,
            l.dropWhile (fun d => d == ' ' || d == '\t')⟩
    else none

/-- Split a character list on a single character, keeping empty pieces
(Python `str.split('\n')`). -/
def splitChar (sep : Char) (l : List Char) : List (List Char) :=
  l.foldr
    (fun c acc =>
      match acc with
      | [] => [[c]]
      | h :: t => if c == sep then [] :: h :: t else (c :: h) :: t)
    [[]]

/-- The line-accumulation loop of lines 496-503: keep a processed line when
it is non-empty, or when the previously kept line is non-empty (this
preserves one blank line after content). -/
def buildCleaned (lines : List (List Char)) : List (List Char) :=
  lines.foldl
    (fun acc line =>
      if line ≠ [] ∨ (acc ≠ [] ∧ acc.getLastD [] ≠ []) then acc ++ [line] else acc)
    []

/-- The rejoining loop of lines 506-514: a blank line between two non-empty
neighbours becomes a paragraph break. -/
def rejoinAux (prev : List Char) : List (List Char) → List Char
  | [] => []
  | l :: rest =>
    (if l ≠ [] ∧ prev ≠ [] then '\n' :: '\n' :: l else '\n' :: l) ++ rejoinAux l rest

/-- Rejoin the kept lines (lines 505-514). -/
def rejoinLines : List (List Char) → List Char
  | [] => []
  | l0 :: rest => l0 ++ rejoinAux l0 rest

/-- Matcher for `([.,!?;:])\s+([a-zA-Z]) -> \1 \2` (line 521). -/
def mPunctWsLetter : Matcher := fun _ l =>
  match l with
  | [] => none
  | p :: rest =>
    if isPunct6 p then
      let ws := rest.takeWhile pyIsSpace
      if 1 ≤ ws.length then
        match rest.dropWhile pyIsSpace with
        | d :: rest2 => if d.isAlpha then some ⟨[p, ' ', d], d, rest2⟩ else none
        | [] => none
      else none
    else none

/-- The terminal-punctuation guarantee of lines 524-525: append a `.` when
the text is non-empty and does not already end in `.`, `!` or `?`. -/
def ensureEndPunct (l : List Char) : List Char :=
  match l.getLast? with
  | none => l
  | some c => if isTermPunct c then l else l ++ ['.']

/-- Stage 10 of the pipeline, `final_cleanup`, on lists. -/
def finalCleanupL (l : List Char) : List Char :=
  let kept := l.filter allowedFinal
  let lines := (splitChar '\n' kept).map (fun ln => stripList (runSubL mSpaceTabRun ln))
  let l2 := rejoinLines (buildCleaned lines)
  let l3 := runSubL mPunctWsLetter (runSubL mCloseParen (runSubL mOpenParen l2))
  ensureEndPunct l3

/-- Stage 10 of the pipeline, `final_cleanup`. -/
def final_cleanup (text : String) : String :=
  if text = "" then text else ⟨finalCleanupL text.data⟩

/-! ### The full pipeline — `ultimate_text_correction` (lines 122-159) -/

/-- The full ten-stage correction pipeline `ultimate_text_correction`: the
empty string is returned immediately; otherwise the ten stages run in
order. -/
def ultimate_text_correction (text : String) : String :=
  if text = "" then ""
  else
    final_cleanup (fix_ocr_grammar (fix_capitalization
      (format_titles_and_paragraphs (clean_punctuation_symbols
        (fix_verb_tenses (fix_broken_merged_words (fix_repeated_words
          (fix_severe_distortions (fix_character_substitutions text)))))))))

/-! ### `extract_text_from_image` (lines 72-120)

The OCR engine call and image decoding are external collaborators; they are
modelled by an outcome value: either the raw text the engine returned, or an
exception.  The surrounding logic (strip, correction, and the confidence
rule of line 110) is embedded exactly. -/

/-- Outcome of the external image-decoding + OCR step inside
`extract_text_from_image`: the raw engine text, or an exception. -/
inductive OcrOutcome where
  | ok (raw : String)
  | exn (msg : String)
deriving DecidableEq

/-- The dictionary returned by the extraction entry points (the `text` and
`confidence` fields; `description` carries no logic). -/
structure ExtractionOut where
  text : String
  confidence : String
deriving DecidableEq

/-- The `extract_text_from_image` method: on success the corrected text with
confidence `"high"` exactly when the corrected text is truthy and its strip
is longer than 10 characters, else `"medium"`; on an exception, empty text
with confidence `"error"`. -/
def extract_text_from_image (o : OcrOutcome) : ExtractionOut :=
  match o with
  | .exn _ => ⟨"", "error"⟩
  | .ok raw =>
    let corrected := ultimate_text_correction (if raw = "" then "" else pyStrip raw)
    ⟨corrected, if corrected ≠ "" ∧ 10 < (pyStrip corrected).length then "high" else "medium"⟩

/-! ### `_ocr_pdf_images` (lines 568-623)

The actual control flow of `_ocr_pdf_images`: the module has no top-level
`import fitz` — the only `import fitz` is local to `extract_text_from_pdf`
(line 535) and binds `fitz` in that function's local scope only — so the
lookup of the global name `fitz` at line 578 (`fitz.Pixmap(doc, xref)`)
raises `NameError` as soon as any of the first ten pages has an image,
before a single OCR task is created.  (The cleanup loop at lines 604-605,
`range(len(doc[page_num]).get_images() ...)`, would also raise, but it is
only reached when `image_tasks` is non-empty, which requires surviving line
578 first.)  Hence the method returns normally only in the no-image case,
with `{"text": "", "confidence": "low"}` (lines 618-623); for every
image-bearing PDF the exception propagates to `extract_text_from_pdf`'s
`except` handler (lines 560-566), which returns empty text with confidence
`"error"`.  The method is modelled over the image counts of the document's
pages, `imagesPerPage`, with an `Except` for the raised exception.

The gather/filter/join aggregation written at lines 592-617 is therefore
unreachable code.  It is still embedded below (`keptTexts`,
`ocr_pdf_images_aggregate`) as the evident intent of the method, to compare
with the spec's partial-failure contract: per-task results in
`asyncio.gather` order (with `return_exceptions=True`, a failed task yields
its exception object in place), a unit modelled as `Option String` (`none`
for an exception, `some t` for a result dict whose `text` field is `t`; a
failed OCR inside the task yields `some ""`), line 599 keeping only dict
results with truthy text, and line 610 joining them with the two-character
separator `\n` written `"\\n"` in the source. -/

/-- The reachable behavior of `_ocr_pdf_images`, over the per-page image
counts of the first ten pages: any image triggers the `NameError` of line
578 (the name `fitz` is not bound in the module scope); with no images at
all, lines 618-623 return empty text with confidence `"low"`. -/
def ocr_pdf_images (imagesPerPage : List Nat) : Except String ExtractionOut :=
  if (imagesPerPage.take 10).any (fun n => 0 < n) then
    Except.error "NameError: name 'fitz' is not defined"
  else
    Except.ok ⟨"", "low"⟩

/-- The image-only branch of `extract_text_from_pdf` (lines 557-566): the
awaited `_ocr_pdf_images` result, with the surrounding `except` handler
turning any exception into empty text with confidence `"error"`. -/
def extract_text_from_pdf_images_branch (imagesPerPage : List Nat) : ExtractionOut :=
  match ocr_pdf_images imagesPerPage with
  | Except.ok r => r
  | Except.error _ => ⟨"", "error"⟩

/-- The texts that survive the filter of lines 597-601, in task order. -/
def keptTexts (results : List (Option String)) : List String :=
  results.filterMap (fun r =>
    match r with
    | some t => if t ≠ "" then some t else none
    | none => none)

/-- The aggregation logic written at lines 592-617 of `_ocr_pdf_images` —
unreachable in the program (see `ocr_pdf_images`), embedded as the code's
evident intent: with no image tasks, empty text and confidence `"low"`;
otherwise the kept texts joined in order, with confidence `"medium"` when
the joined text is non-empty and `"low"` otherwise. -/
def ocr_pdf_images_aggregate (results : List (Option String)) : ExtractionOut :=
  if results = [] then ⟨"", "low"⟩
  else
    let combined := joinSep "\\n" (keptTexts results)
    ⟨combined, if combined ≠ "" then "medium" else "low"⟩


end UltimateOCR

namespace OCRService

/-!
Embedding of the candidate-scoring loop of
`src/services/ocr_service.py::extract_text_from_path` (lines 299-339).
Image preprocessing and the OCR engine are external; the loop's input is the
list of reconstructed candidate texts (`current_text` values), in the order
the `(image, config)` pairs are tried.  Python computes the score in floating
point; it is modelled in exact rational arithmetic, which agrees on all
comparisons used here. -/

open UltimateOCR (pyStrip stripList pyIsSpace)

/-- The number of alphanumeric characters of a text
(`sum(c.isalnum() for c in current_text)`, line 326). -/
def alnumCount (t : String) : Nat := t.data.countP (fun c => c.isAlphanum)

/-- The candidate score of lines 326-328:
`(alpha_count / max(1, len(current_text))) * 100`, as the exact rational
`alnumCount / max 1 length * 100`. -/
def candidateScore (t : String) : ℚ :=
  Rat.divInt (alnumCount t) (Nat.max 1 t.length) * 100

/-- One iteration of the scoring loop (lines 325-332): empty candidates are
skipped; a strictly greater score replaces the best. -/
def selectStep (b : String × ℚ) (t : String) : String × ℚ :=
  if t ≠ "" then
    if candidateScore t > b.2 then (t, candidateScore t) else b
  else b

/-- The scoring loop over all candidates, starting from `("", 0)`
(lines 299-300). -/
def selectLoop (cands : List String) : String × ℚ :=
  cands.foldl selectStep ("", 0)

/-- The selection result: the best text, or a failure signal when
`best_text.strip()` is empty (lines 338-339). -/
def select_best (cands : List String) : Option String :=
  let b := selectLoop cands
  if pyStrip b.1 = "" then none else some b.1

/-- Modelled from the spec: the scoring formula the specification claims
(count of alphanumeric characters minus a penalty-weighted count of
characters outside the allowed set of letters, digits, whitespace and
`.,!?;:-'"()`), with penalty weight `w` (the spec suggests about 1.2). -/
def specAllowedChar (c : Char) : Bool :=
  c.isAlphanum || pyIsSpace c || UltimateOCR.isPunct6 c ||
  c == '-' || c == '\'' || c == '"' || c == '(' || c == ')'

/-- Modelled from the spec: the claimed candidate score. -/
def specClaimScore (w : ℚ) (t : String) : ℚ :=
  (alnumCount t : ℚ) - w * ((t.data.countP (fun c => !specAllowedChar c)) : ℚ)

end OCRService

unseal Rat.mul Rat.add Rat.sub Rat.inv

/-! ## Theorems -/

namespace UltimateOCR

/-- The string whose data list is `l`. -/
theorem String.mk_data (l : List Char) : (String.mk l).data = l := rfl

/-- A string is empty exactly when its data list is empty. -/
theorem mk_eq_empty_iff (l : List Char) : String.mk l = "" ↔ l = [] := by
  constructor
  · intro h
    have := congrArg String.data h
    simpa using this
  · intro h; subst h; rfl

/-- The last step of `final_cleanup` leaves the empty list empty, and
otherwise guarantees a terminal last character. -/
theorem ensureEndPunct_spec (l : List Char) :
    ensureEndPunct l = [] ∨
      ∃ c, (ensureEndPunct l).getLast? = some c ∧ isTermPunct c = true := by
  unfold ensureEndPunct
  cases h : l.getLast? with
  | none =>
    left
    exact List.getLast?_eq_none_iff.mp h
  | some c =>
    right
    by_cases hc : isTermPunct c = true
    · refine ⟨c, ?_, hc⟩
      show (if isTermPunct c = true then l else l ++ ['.']).getLast? = some c
      rw [if_pos hc]
      exact h
    · refine ⟨'.', ?_, by decide⟩
      show (if isTermPunct c = true then l else l ++ ['.']).getLast? = some '.'
      rw [if_neg hc, List.getLast?_concat]

/-- The output of `final_cleanup` is empty or ends in terminal
punctuation. -/
theorem final_cleanup_empty_or_term (t : String) :
    final_cleanup t = "" ∨ endsWithTerm (final_cleanup t) = true := by
  unfold final_cleanup
  split
  · left; assumption
  · unfold finalCleanupL
    rcases ensureEndPunct_spec
        (runSubL mPunctWsLetter (runSubL mCloseParen (runSubL mOpenParen
          (rejoinLines (buildCleaned ((splitChar '\n' (t.data.filter allowedFinal)).map
            (fun ln => stripList (runSubL mSpaceTabRun ln)))))))) with h | h
    · left; rw [h]
    · right
      obtain ⟨c, hc, hterm⟩ := h
      unfold endsWithTerm
      rw [String.mk_data, hc]
      exact hterm

/-- The output of the full pipeline is empty or ends in terminal
punctuation. -/
theorem utc_empty_or_term (s : String) :
    ultimate_text_correction s = "" ∨
      endsWithTerm (ultimate_text_correction s) = true := by
  unfold ultimate_text_correction
  split
  · left; rfl
  · exact final_cleanup_empty_or_term _

/-- Claim C3 (corrected): the pipeline does not guarantee terminal
punctuation for every non-empty input, because a whitespace-only input is
non-empty, lacks trailing terminal punctuation, and yet produces the empty
output, which ends in no character at all. -/
theorem terminal_punct_whitespace_cex :
    (" " : String) ≠ "" ∧ endsWithTerm " " = false ∧
      ultimate_text_correction " " = "" ∧
      endsWithTerm (ultimate_text_correction " ") = false := by
  refine ⟨by decide, by decide, by decide, by decide⟩

/-- Claim C3 (amended): whenever the full pipeline produces a non-empty
output, that output ends in one of `.`, `!`, `?`; non-empty inputs can
produce the empty output only in the degenerate whitespace-only-like cases
exhibited by the counterexample. -/
theorem terminal_punct_guarantee (s : String)
    (h : ultimate_text_correction s ≠ "") :
    endsWithTerm (ultimate_text_correction s) = true := by
  rcases utc_empty_or_term s with h' | h'
  · exact absurd h' h
  · exact h'

/-- Witness for `terminal_punct_guarantee` at the input `"hello"`. -/
theorem terminal_punct_guarantee_witness :
    endsWithTerm (ultimate_text_correction "hello") = true :=
  terminal_punct_guarantee "hello" (by decide)

/-- Claim C4 (code bug): `fix_capitalization` returns its input unchanged —
the sentence at position 0 is not capitalized and the non-acronym all-caps
word is not down-cased — because `_capitalize_section` executes
`return text` inside the first iteration of its loop (line 420 of
`ultimate_ocr_service.py`), making the capitalization logic unreachable;
the full pipeline also leaves `BANANA` untouched (the `World`
capitalization comes from the stage-4/9 `([.!?])\s*([a-z])` passes, not
from `fix_capitalization`). -/
theorem fix_capitalization_identity_eval :
    fix_capitalization "hello. world BANANA" = "hello. world BANANA" ∧
      ultimate_text_correction "hello. world BANANA" = "hello. World BANANA." ∧
      ultimate_text_correction "supports OCR and API integration today" =
        "supports OCR and API integration today." ∧
      containsStr (ultimate_text_correction "supports OCR and API integration today")
        "OCR" = true ∧
      containsStr (ultimate_text_correction "supports OCR and API integration today")
        "API" = true := by
  refine ⟨by decide, by decide, by decide, by decide, by decide⟩

/-- Claim C10 (confirmed): for a single image, the returned confidence is
`"high"` exactly when the corrected, whitespace-stripped text is longer
than 10 characters, and `"medium"` otherwise on a successful extraction
(so a success always reports `"high"` or `"medium"`); an internal
exception yields empty text with confidence `"error"`; `"low"` is never
returned. -/
theorem image_confidence_rule (o : OcrOutcome) :
    ((extract_text_from_image o).confidence = "high" ↔
      ∃ raw, o = OcrOutcome.ok raw ∧
        10 < (pyStrip (extract_text_from_image o).text).length) ∧
    (∀ raw, o = OcrOutcome.ok raw →
      (extract_text_from_image o).confidence = "high" ∨
      (extract_text_from_image o).confidence = "medium") ∧
    (∀ raw, o = OcrOutcome.ok raw →
      ¬ 10 < (pyStrip (extract_text_from_image o).text).length →
      (extract_text_from_image o).confidence = "medium") ∧
    (extract_text_from_image o).confidence ≠ "low" ∧
    (∀ msg, o = OcrOutcome.exn msg →
      extract_text_from_image o = ⟨"", "error"⟩) := by
  cases o with
  | exn msg =>
    refine ⟨?_, fun raw heq => OcrOutcome.noConfusion heq,
      fun raw heq => OcrOutcome.noConfusion heq, ?_, fun _ _ => rfl⟩
    · constructor
      · intro h
        exact absurd (show ("error" : String) = "high" from h) (by decide)
      · rintro ⟨raw, heq, -⟩
        exact OcrOutcome.noConfusion heq
    · show ("error" : String) ≠ "low"
      decide
  | ok raw =>
    simp only [extract_text_from_image]
    refine ⟨?_, ?_, ?_, ?_, ?_⟩
    · by_cases hc : ultimate_text_correction (if raw = "" then "" else pyStrip raw) ≠ "" ∧
          10 < (pyStrip (ultimate_text_correction
            (if raw = "" then "" else pyStrip raw))).length
      · rw [if_pos hc]
        exact ⟨fun _ => ⟨raw, rfl, hc.2⟩, fun _ => rfl⟩
      · rw [if_neg hc]
        constructor
        · intro h
          exact absurd h (by decide)
        · rintro ⟨raw', heq, hlen⟩
          injection heq with h'
          subst h'
          exfalso
          apply hc
          refine ⟨?_, hlen⟩
          intro hempty
          rw [hempty] at hlen
          exact absurd hlen (by decide)
    · intro raw' heq
      by_cases hc : ultimate_text_correction (if raw = "" then "" else pyStrip raw) ≠ "" ∧
          10 < (pyStrip (ultimate_text_correction
            (if raw = "" then "" else pyStrip raw))).length
      · rw [if_pos hc]
        exact Or.inl rfl
      · rw [if_neg hc]
        exact Or.inr rfl
    · intro raw' heq hnot
      rw [if_neg (fun hC => hnot (And.right hC))]
    · by_cases hc : ultimate_text_correction (if raw = "" then "" else pyStrip raw) ≠ "" ∧
          10 < (pyStrip (ultimate_text_correction
            (if raw = "" then "" else pyStrip raw))).length
      · rw [if_pos hc]
        decide
      · rw [if_neg hc]
        decide
    · intro msg h
      exact OcrOutcome.noConfusion h

/-- Witness for `image_confidence_rule` at successful outcomes (one long,
reported non-`"low"`, and one short, reported `"medium"`) and at an
exception. -/
theorem image_confidence_rule_witness :
    (extract_text_from_image (OcrOutcome.ok "hello")).confidence ≠ "low" ∧
      (extract_text_from_image (OcrOutcome.ok "hi")).confidence = "medium" ∧
      extract_text_from_image (OcrOutcome.exn "boom") =
        ⟨"", "error"⟩ := by
  refine ⟨(image_confidence_rule (OcrOutcome.ok "hello")).2.2.2.1,
    (image_confidence_rule (OcrOutcome.ok "hi")).2.2.1 "hi" rfl (by decide),
    (image_confidence_rule (OcrOutcome.exn "boom")).2.2.2.2 "boom" rfl⟩

/-! ### Whitespace-only inputs

The pipeline sends every whitespace-only input to the empty string: stages
1, 3, 4 and 5 leave such input unchanged (none of their patterns can match
inside pure whitespace), stage 2 can only shrink whitespace runs (the
`(.)\1{2,}` pass), and stage 6 collapses the remaining whitespace to one
space and strips it away; the later stages map the empty string to
itself. -/

/-- Scanning the empty list produces the empty list. -/
theorem reSub_nil (m : Matcher) (fuel : Nat) (prev : Option Char) :
    reSub m fuel prev [] = [] := by
  cases fuel <;> rfl

/-- Split an `all` fact about a cons cell. -/
theorem all_cons_true {p : Char → Bool} {c : Char} {cs : List Char}
    (h : (c :: cs).all p = true) : p c = true ∧ cs.all p = true := by
  rw [List.all_cons, Bool.and_eq_true] at h
  exact h

/-- A Python-whitespace character is one of the six ASCII candidates. -/
theorem ws_char_cases {c : Char} (h : pyIsSpace c = true) :
    c = ' ' ∨ c = '\t' ∨ c = '\n' ∨ c = '\r' ∨ c = '\x0b' ∨ c = '\x0c' := by
  unfold pyIsSpace at h
  simp only [Bool.or_eq_true, beq_iff_eq] at h
  tauto

/-- Dropping a decidable segment preserves an `all` invariant. -/
theorem all_dropWhile {p q : Char → Bool} :
    ∀ l : List Char, l.all p = true → (l.dropWhile q).all p = true := by
  intro l
  induction l with
  | nil => intro h; exact h
  | cons c cs ih =>
    intro hl
    obtain ⟨h1, h2⟩ := all_cons_true hl
    rw [List.dropWhile_cons]
    by_cases hq : q c = true
    · rw [if_pos hq]
      exact ih h2
    · rw [if_neg hq, List.all_cons, Bool.and_eq_true]
      exact ⟨h1, h2⟩

/-- If a matcher never fires on whitespace-only input, the scan leaves
whitespace-only input unchanged. -/
theorem reSub_eq_of_wsNone {m : Matcher}
    (hm : ∀ prev l, l.all pyIsSpace = true → m prev l = none) :
    ∀ fuel prev l, l.all pyIsSpace = true → reSub m fuel prev l = l := by
  intro fuel
  induction fuel with
  | zero => intro prev l _; rfl
  | succ n ih =>
    intro prev l hl
    cases l with
    | nil => rfl
    | cons c cs =>
      have hmn := hm prev (c :: cs) hl
      simp only [reSub, hmn]
      rw [ih (some c) cs (all_cons_true hl).2]

/-- If a matcher maps whitespace-only input to whitespace-only replacement
and remainder, the scan preserves whitespace-only-ness. -/
theorem reSub_ws_of_preserve {m : Matcher}
    (hm : ∀ prev l r, l.all pyIsSpace = true → m prev l = some r →
      r.rep.all pyIsSpace = true ∧ r.rest.all pyIsSpace = true) :
    ∀ fuel prev l, l.all pyIsSpace = true →
      (reSub m fuel prev l).all pyIsSpace = true := by
  intro fuel
  induction fuel with
  | zero => intro prev l hl; exact hl
  | succ n ih =>
    intro prev l hl
    cases l with
    | nil => exact hl
    | cons c cs =>
      cases hmc : m prev (c :: cs) with
      | none =>
        simp only [reSub, hmc, List.all_cons, Bool.and_eq_true]
        exact ⟨(all_cons_true hl).1, ih (some c) cs (all_cons_true hl).2⟩
      | some r =>
        simp only [reSub, hmc, List.all_append, Bool.and_eq_true]
        obtain ⟨h1, h2⟩ := hm prev (c :: cs) r hl hmc
        exact ⟨h1, ih (some r.lastc) r.rest h2⟩

/-- `mStandaloneZero` never fires on whitespace. -/
theorem mStandaloneZero_wsNone :
    ∀ prev l, l.all pyIsSpace = true → mStandaloneZero prev l = none := by
  intro prev l hl
  cases l with
  | nil => rfl
  | cons c cs =>
    rcases ws_char_cases (all_cons_true hl).1 with rfl | rfl | rfl | rfl | rfl | rfl <;> rfl

/-- `mPipe` never fires on whitespace. -/
theorem mPipe_wsNone :
    ∀ prev l, l.all pyIsSpace = true → mPipe prev l = none := by
  intro prev l hl
  cases l with
  | nil => rfl
  | cons c cs =>
    rcases ws_char_cases (all_cons_true hl).1 with rfl | rfl | rfl | rfl | rfl | rfl <;> rfl

/-- `mLoneDigit` never fires on whitespace (its trigger is a digit). -/
theorem mLoneDigit_wsNone (d r : Char) (hd : pyIsSpace d = false) :
    ∀ prev l, l.all pyIsSpace = true → mLoneDigit d r prev l = none := by
  intro prev l hl
  cases l with
  | nil => rfl
  | cons c cs =>
    have hc := (all_cons_true hl).1
    simp only [mLoneDigit]
    have : (c == d) = false := by
      rcases eq_or_ne c d with rfl | hne
      · rw [hc] at hd; exact absurd hd (by simp)
      · exact beq_eq_false_iff_ne.mpr hne
    rw [this]
    rfl

/-- `mWordWsPunct` never fires on whitespace (its trigger is a word
character). -/
theorem mWordWsPunct_wsNone :
    ∀ prev l, l.all pyIsSpace = true → mWordWsPunct prev l = none := by
  intro prev l hl
  cases l with
  | nil => rfl
  | cons c cs =>
    rcases ws_char_cases (all_cons_true hl).1 with rfl | rfl | rfl | rfl | rfl | rfl <;> rfl

/-- `mPunctWsWord` never fires on whitespace. -/
theorem mPunctWsWord_wsNone :
    ∀ prev l, l.all pyIsSpace = true → mPunctWsWord prev l = none := by
  intro prev l hl
  cases l with
  | nil => rfl
  | cons c cs =>
    rcases ws_char_cases (all_cons_true hl).1 with rfl | rfl | rfl | rfl | rfl | rfl <;> rfl

/-- `mRepeatRun` maps whitespace to whitespace (it can collapse a run of
three or more identical whitespace characters to two). -/
theorem mRepeatRun_ws :
    ∀ prev l r, l.all pyIsSpace = true → mRepeatRun prev l = some r →
      r.rep.all pyIsSpace = true ∧ r.rest.all pyIsSpace = true := by
  intro prev l r hl h
  cases l with
  | nil => exact Option.noConfusion h
  | cons c cs =>
    obtain ⟨hc, hcs⟩ := all_cons_true hl
    simp only [mRepeatRun] at h
    split at h
    · exact Option.noConfusion h
    · split at h
      · cases h
        refine ⟨?_, all_dropWhile cs hcs⟩
        simp [hc]
      · exact Option.noConfusion h

/-- `mPairWord` on a word starting with a letter never fires on
whitespace. -/
theorem mPairWord_wsNone (p : Char) (ps : List Char)
    (hp : ∀ c, pyIsSpace c = true → ciEq p c = false) :
    ∀ prev l, l.all pyIsSpace = true → mPairWord (p :: ps) prev l = none := by
  intro prev l hl
  cases l with
  | nil =>
    simp only [mPairWord, ciTake]
    split <;> rfl
  | cons c cs =>
    have hc := (all_cons_true hl).1
    simp only [mPairWord, ciTake, hp c hc]
    split <;> rfl

/-- `mTripleWord` on a word starting with a letter never fires on
whitespace. -/
theorem mTripleWord_wsNone (p : Char) (ps : List Char)
    (hp : ∀ c, pyIsSpace c = true → ciEq p c = false) :
    ∀ prev l, l.all pyIsSpace = true → mTripleWord (p :: ps) prev l = none := by
  intro prev l hl
  cases l with
  | nil =>
    simp only [mTripleWord, ciTake]
    split <;> rfl
  | cons c cs =>
    have hc := (all_cons_true hl).1
    simp only [mTripleWord, ciTake, hp c hc]
    split <;> rfl

/-- `mWordCI` on a word starting with a letter never fires on whitespace. -/
theorem mWordCI_wsNone (p : Char) (ps rep : List Char)
    (hp : ∀ c, pyIsSpace c = true → ciEq p c = false) :
    ∀ prev l, l.all pyIsSpace = true → mWordCI (p :: ps) rep prev l = none := by
  intro prev l hl
  cases l with
  | nil =>
    simp only [mWordCI, ciTake]
    split <;> rfl
  | cons c cs =>
    have hc := (all_cons_true hl).1
    simp only [mWordCI, ciTake, hp c hc]
    split <;> rfl

/-- `mGenPair` never fires on whitespace. -/
theorem mGenPair_wsNone :
    ∀ prev l, l.all pyIsSpace = true → mGenPair prev l = none := by
  intro prev l hl
  cases l with
  | nil => simp [mGenPair]
  | cons c cs =>
    rcases ws_char_cases (all_cons_true hl).1 with rfl | rfl | rfl | rfl | rfl | rfl <;>
      simp [mGenPair, List.takeWhile_cons, isWordChar]

/-- `mGenTriple` never fires on whitespace. -/
theorem mGenTriple_wsNone :
    ∀ prev l, l.all pyIsSpace = true → mGenTriple prev l = none := by
  intro prev l hl
  cases l with
  | nil => simp [mGenTriple]
  | cons c cs =>
    rcases ws_char_cases (all_cons_true hl).1 with rfl | rfl | rfl | rfl | rfl | rfl <;>
      simp [mGenTriple, List.takeWhile_cons, isWordChar]

/-- `mLowerUpper` never fires on whitespace. -/
theorem mLowerUpper_wsNone :
    ∀ prev l, l.all pyIsSpace = true → mLowerUpper prev l = none := by
  intro prev l hl
  cases l with
  | nil => rfl
  | cons c cs =>
    cases cs with
    | nil => rfl
    | cons b bs =>
      rcases ws_char_cases (all_cons_true hl).1 with rfl | rfl | rfl | rfl | rfl | rfl <;> rfl

/-- `mLit` on a pattern starting with a non-whitespace character never fires
on whitespace. -/
theorem mLit_wsNone (p : Char) (ps rep : List Char) (hp : pyIsSpace p = false) :
    ∀ prev l, l.all pyIsSpace = true → mLit (p :: ps) rep prev l = none := by
  intro prev l hl
  cases l with
  | nil => rfl
  | cons c cs =>
    have hc := (all_cons_true hl).1
    have hne : (c == p) = false := by
      rcases eq_or_ne c p with rfl | hne
      · rw [hc] at hp; exact absurd hp (by simp)
      · exact beq_eq_false_iff_ne.mpr hne
    simp only [mLit, litTake, hne]
    rfl

/-- `mPunctCapNext` never fires on whitespace. -/
theorem mPunctCapNext_wsNone :
    ∀ prev l, l.all pyIsSpace = true → mPunctCapNext prev l = none := by
  intro prev l hl
  cases l with
  | nil => rfl
  | cons c cs =>
    rcases ws_char_cases (all_cons_true hl).1 with rfl | rfl | rfl | rfl | rfl | rfl <;> rfl

/-- `mWsPunct` never fires on whitespace-only input: the whitespace run is
never followed by a punctuation mark. -/
theorem mWsPunct_wsNone :
    ∀ prev l, l.all pyIsSpace = true → mWsPunct prev l = none := by
  intro prev l hl
  cases l with
  | nil => rfl
  | cons c cs =>
    have hdrop : (c :: cs).dropWhile pyIsSpace = [] :=
      List.dropWhile_eq_nil_iff.mpr (fun x hx => List.all_eq_true.mp hl x hx)
    simp only [mWsPunct, hdrop]
    split <;> rfl

/-- `mPunctPad` never fires on whitespace. -/
theorem mPunctPad_wsNone :
    ∀ prev l, l.all pyIsSpace = true → mPunctPad prev l = none := by
  intro prev l hl
  cases l with
  | nil => rfl
  | cons c cs =>
    rcases ws_char_cases (all_cons_true hl).1 with rfl | rfl | rfl | rfl | rfl | rfl <;> rfl

/-- Stage 1 leaves whitespace-only input unchanged. -/
theorem fix_character_substitutions_ws (s : String)
    (h : s.data.all pyIsSpace = true) : fix_character_substitutions s = s := by
  show (⟨runSubL mPipe (runSubL mStandaloneZero s.data)⟩ : String) = s
  rw [show runSubL mStandaloneZero s.data = s.data from
        reSub_eq_of_wsNone mStandaloneZero_wsNone _ _ _ h,
      show runSubL mPipe s.data = s.data from
        reSub_eq_of_wsNone mPipe_wsNone _ _ _ h]

/-- Stage 2 keeps whitespace-only input whitespace-only. -/
theorem fix_severe_distortions_ws (s : String)
    (h : s.data.all pyIsSpace = true) :
    (fix_severe_distortions s).data.all pyIsSpace = true := by
  show (fixSevereL s.data).all pyIsSpace = true
  unfold fixSevereL
  rw [show runSubL (mLoneDigit '0' 'O') s.data = s.data from
        reSub_eq_of_wsNone (mLoneDigit_wsNone '0' 'O' (by decide)) _ _ _ h,
      show runSubL (mLoneDigit '1' 'l') s.data = s.data from
        reSub_eq_of_wsNone (mLoneDigit_wsNone '1' 'l' (by decide)) _ _ _ h,
      show runSubL (mLoneDigit '5' 'S') s.data = s.data from
        reSub_eq_of_wsNone (mLoneDigit_wsNone '5' 'S' (by decide)) _ _ _ h,
      show runSubL (mLoneDigit '8' 'B') s.data = s.data from
        reSub_eq_of_wsNone (mLoneDigit_wsNone '8' 'B' (by decide)) _ _ _ h]
  have h5 : (runSubL mRepeatRun s.data).all pyIsSpace = true :=
    reSub_ws_of_preserve mRepeatRun_ws _ _ _ h
  rw [show runSubL mWordWsPunct (runSubL mRepeatRun s.data) = runSubL mRepeatRun s.data from
        reSub_eq_of_wsNone mWordWsPunct_wsNone _ _ _ h5,
      show runSubL mPunctWsWord (runSubL mRepeatRun s.data) = runSubL mRepeatRun s.data from
        reSub_eq_of_wsNone mPunctWsWord_wsNone _ _ _ h5]
  exact h5

/-- Helper discharging the head hypothesis of the word-matcher lemmas. -/
theorem headNotWs {p : Char}
    (hp2 : p.toLower ≠ ' ' ∧ p.toLower ≠ '\t' ∧ p.toLower ≠ '\n' ∧
      p.toLower ≠ '\r' ∧ p.toLower ≠ '\x0b' ∧ p.toLower ≠ '\x0c') :
    ∀ c, pyIsSpace c = true → ciEq p c = false := by
  intro c hc
  obtain ⟨h1, h2, h3, h4, h5, h6⟩ := hp2
  rcases ws_char_cases hc with rfl | rfl | rfl | rfl | rfl | rfl <;>
    · unfold ciEq
      rw [beq_eq_false_iff_ne]
      intro hx
      first
        | exact h1 (by rw [hx]; rfl)
        | exact h2 (by rw [hx]; rfl)
        | exact h3 (by rw [hx]; rfl)
        | exact h4 (by rw [hx]; rfl)
        | exact h5 (by rw [hx]; rfl)
        | exact h6 (by rw [hx]; rfl)

/-- Stage 3 leaves whitespace-only input unchanged. -/
theorem fix_repeated_words_ws (s : String)
    (h : s.data.all pyIsSpace = true) : fix_repeated_words s = s := by
  have hthe : ∀ c, pyIsSpace c = true → ciEq 't' c = false :=
    headNotWs (by decide)
  have hand : ∀ c, pyIsSpace c = true → ciEq 'a' c = false :=
    headNotWs (by decide)
  have hof : ∀ c, pyIsSpace c = true → ciEq 'o' c = false :=
    headNotWs (by decide)
  have his : ∀ c, pyIsSpace c = true → ciEq 'i' c = false :=
    headNotWs (by decide)
  have hwas : ∀ c, pyIsSpace c = true → ciEq 'w' c = false :=
    headNotWs (by decide)
  show (⟨fixRepeatedL s.data⟩ : String) = s
  unfold fixRepeatedL
  rw [show runSubL (mTripleWord ['t', 'h', 'e']) s.data = s.data from
        reSub_eq_of_wsNone (mTripleWord_wsNone 't' _ hthe) _ _ _ h,
      show runSubL (mPairWord ['t', 'h', 'e']) s.data = s.data from
        reSub_eq_of_wsNone (mPairWord_wsNone 't' _ hthe) _ _ _ h,
      show runSubL (mPairWord ['a', 'n', 'd']) s.data = s.data from
        reSub_eq_of_wsNone (mPairWord_wsNone 'a' _ hand) _ _ _ h,
      show runSubL (mPairWord ['o', 'f']) s.data = s.data from
        reSub_eq_of_wsNone (mPairWord_wsNone 'o' _ hof) _ _ _ h,
      show runSubL (mPairWord ['t', 'o']) s.data = s.data from
        reSub_eq_of_wsNone (mPairWord_wsNone 't' _ hthe) _ _ _ h,
      show runSubL (mPairWord ['i', 's']) s.data = s.data from
        reSub_eq_of_wsNone (mPairWord_wsNone 'i' _ his) _ _ _ h,
      show runSubL (mPairWord ['a', 'r', 'e']) s.data = s.data from
        reSub_eq_of_wsNone (mPairWord_wsNone 'a' _ hand) _ _ _ h,
      show runSubL (mPairWord ['w', 'a', 's']) s.data = s.data from
        reSub_eq_of_wsNone (mPairWord_wsNone 'w' _ hwas) _ _ _ h,
      show runSubL mGenTriple s.data = s.data from
        reSub_eq_of_wsNone mGenTriple_wsNone _ _ _ h,
      show runSubL mGenPair s.data = s.data from
        reSub_eq_of_wsNone mGenPair_wsNone _ _ _ h]

/-- Stage 4 leaves whitespace-only input unchanged. -/
theorem fix_broken_merged_words_ws (s : String)
    (h : s.data.all pyIsSpace = true) : fix_broken_merged_words s = s := by
  show (⟨fixBrokenL s.data⟩ : String) = s
  unfold fixBrokenL
  rw [show runSubL mLowerUpper s.data = s.data from
        reSub_eq_of_wsNone mLowerUpper_wsNone _ _ _ h,
      show runSubL (mLit "ifyou".data "if you".data) s.data = s.data from
        reSub_eq_of_wsNone (mLit_wsNone 'i' _ _ (by decide)) _ _ _ h,
      show runSubL (mLit "Ifyou".data "If you".data) s.data = s.data from
        reSub_eq_of_wsNone (mLit_wsNone 'I' _ _ (by decide)) _ _ _ h,
      show runSubL (mLit "youare".data "you are".data) s.data = s.data from
        reSub_eq_of_wsNone (mLit_wsNone 'y' _ _ (by decide)) _ _ _ h,
      show runSubL (mLit "yearsago".data "years ago".data) s.data = s.data from
        reSub_eq_of_wsNone (mLit_wsNone 'y' _ _ (by decide)) _ _ _ h,
      show runSubL (mLit "forentrepreneurs".data "for entrepreneurs".data) s.data = s.data from
        reSub_eq_of_wsNone (mLit_wsNone 'f' _ _ (by decide)) _ _ _ h,
      show runSubL (mLit "itis".data "it is".data) s.data = s.data from
        reSub_eq_of_wsNone (mLit_wsNone 'i' _ _ (by decide)) _ _ _ h,
      show runSubL mPunctCapNext s.data = s.data from
        reSub_eq_of_wsNone mPunctCapNext_wsNone _ _ _ h,
      show runSubL mWsPunct s.data = s.data from
        reSub_eq_of_wsNone mWsPunct_wsNone _ _ _ h,
      show runSubL mPunctPad s.data = s.data from
        reSub_eq_of_wsNone mPunctPad_wsNone _ _ _ h]

/-- Stage 5 leaves whitespace-only input unchanged. -/
theorem fix_verb_tenses_ws (s : String)
    (h : s.data.all pyIsSpace = true) : fix_verb_tenses s = s := by
  have hm : ∀ c, pyIsSpace c = true → ciEq 'm' c = false :=
    headNotWs (by decide)
  have hw : ∀ c, pyIsSpace c = true → ciEq 'w' c = false :=
    headNotWs (by decide)
  show (⟨fixVerbL s.data⟩ : String) = s
  unfold fixVerbL
  rw [show runSubL (mWordCI "mak".data "make".data) s.data = s.data from
        reSub_eq_of_wsNone (mWordCI_wsNone 'm' _ _ hm) _ _ _ h,
      show runSubL (mWordCI "was".data "was".data) s.data = s.data from
        reSub_eq_of_wsNone (mWordCI_wsNone 'w' _ _ hw) _ _ _ h,
      show runSubL (mWordCI "were".data "were".data) s.data = s.data from
        reSub_eq_of_wsNone (mWordCI_wsNone 'w' _ _ hw) _ _ _ h]

/-- Stage 6 collapses whitespace-only input to the empty string. -/
theorem clean_punctuation_symbols_ws (s : String)
    (h : s.data.all pyIsSpace = true) : clean_punctuation_symbols s = "" := by
  show (⟨stripList (cleanPunctL s.data)⟩ : String) = ""
  unfold cleanPunctL
  cases hd : s.data with
  | nil => decide
  | cons c cs =>
    rw [hd] at h
    obtain ⟨hc, hcs⟩ := all_cons_true h
    have hfire : runSubL mWsRun (c :: cs) = [' '] := by
      have hdrop : (c :: cs).dropWhile pyIsSpace = [] :=
        List.dropWhile_eq_nil_iff.mpr (fun x hx => List.all_eq_true.mp h x hx)
      show reSub mWsRun ((c :: cs).length + 1) none (c :: cs) = [' ']
      have hm : mWsRun none (c :: cs) =
          some ⟨[' '], ((c :: cs).takeWhile pyIsSpace).getLastD c, []⟩ := by
        simp only [mWsRun, hc, hdrop]
        rfl
      simp only [List.length_cons, reSub, hm]
      rfl
    rw [hfire]
    decide

/-- The full pipeline maps every whitespace-only string to the empty
string. -/
theorem utc_ws (s : String) (h : s.data.all pyIsSpace = true) :
    ultimate_text_correction s = "" := by
  unfold ultimate_text_correction
  split
  · rfl
  · rw [fix_character_substitutions_ws s h]
    have h2 := fix_severe_distortions_ws s h
    rw [fix_repeated_words_ws _ h2, fix_broken_merged_words_ws _ h2,
      fix_verb_tenses_ws _ h2, clean_punctuation_symbols_ws _ h2]
    decide

/-- Claim C9 (confirmed): every empty or whitespace-only input is mapped to
the empty string (and the pipeline, being a total function, raises no
exception on any string input). -/
theorem empty_input_returns_empty (s : String)
    (h : ∀ c ∈ s.data, pyIsSpace c = true) :
    ultimate_text_correction s = "" :=
  utc_ws s (List.all_eq_true.mpr h)

/-- Witness for `empty_input_returns_empty` at a two-space input. -/
theorem empty_input_returns_empty_witness :
    ultimate_text_correction "  " = "" :=
  empty_input_returns_empty "  " (by decide)

/-- Claim C1 (counterexample): the pipeline is not idempotent.  On the
input `"a;"` the first pass appends a period directly after the semicolon
(`"a;."`), and the second pass separates the two punctuation marks with a
space (`"a; ."`). -/
theorem correction_not_idempotent_cex :
    ultimate_text_correction (ultimate_text_correction "a;") ≠
      ultimate_text_correction "a;" ∧
    ultimate_text_correction "a;" = "a;." ∧
    ultimate_text_correction (ultimate_text_correction "a;") = "a; ." := by
  refine ⟨by decide, by decide, by decide⟩

/-- Claim C1 (amended): the pipeline is not idempotent in general (see the
counterexample); it is idempotent on every empty or whitespace-only input,
where both applications yield the empty string. -/
theorem correction_idempotent_on_whitespace (s : String)
    (h : ∀ c ∈ s.data, pyIsSpace c = true) :
    ultimate_text_correction (ultimate_text_correction s) =
      ultimate_text_correction s := by
  rw [utc_ws s (List.all_eq_true.mpr h)]
  decide

/-- Witness for `correction_idempotent_on_whitespace` at a one-space
input. -/
theorem correction_idempotent_on_whitespace_witness :
    ultimate_text_correction (ultimate_text_correction " ") =
      ultimate_text_correction " " :=
  correction_idempotent_on_whitespace " " (by decide)

/-- Claim C2 (counterexample): a maximal run of two or more digits is not
always preserved: in `"a 1000 b"` the run `000` inside the numeral `1000`
is collapsed to `00` by the `(.)\1{2,}` pass of `fix_severe_distortions`,
so the output numeral is `100`. -/
theorem digit_run_collapsed_cex :
    ultimate_text_correction "a 1000 b" = "a 100 b." ∧
    containsStr "a 1000 b" "1000" = true ∧
    containsStr (ultimate_text_correction "a 1000 b") "1000" = false := by
  refine ⟨by decide, by decide, by decide⟩

/-- Claim C2 (amended): multi-digit runs without three identical
consecutive digits survive the pipeline; on the spec's own example the
numerals `350` and `2` are preserved character for character. -/
theorem digit_preservation_example :
    ultimate_text_correction "Cook for 350 degrees and 2 cups" =
      "Cook for 350 degrees and 2 cups." ∧
    containsStr (ultimate_text_correction "Cook for 350 degrees and 2 cups")
      "350" = true ∧
    containsStr (ultimate_text_correction "Cook for 350 degrees and 2 cups")
      "2" = true := by
  refine ⟨by decide, by decide, by decide⟩

/-- Claim C8 (counterexample): a word repeated twice is not always
collapsed: the generic pattern `\b(\w+)\s+\1\b` cannot match a word
containing an apostrophe, so `correct("don't don't")` keeps the repeated
word. -/
theorem repeated_word_apostrophe_cex :
    ultimate_text_correction "don't don't" = "don't don't." ∧
    containsStr (ultimate_text_correction "don't don't") "don't don't" = true := by
  refine ⟨by decide, by decide⟩

/-- Claim C8 (amended): for words made of `\w` characters the collapse
works as claimed; on the spec's own example the triple `the` collapses to
one occurrence and the output has no `the the` left. -/
theorem repeated_word_collapse_example :
    ultimate_text_correction "the the the hands must be washed" =
      "the hands must be washed." ∧
    containsStr (ultimate_text_correction "the the the hands must be washed")
      "the hands must be washed" = true ∧
    containsStr (ultimate_text_correction "the the the hands must be washed")
      "the the" = false := by
  refine ⟨by decide, by decide, by decide⟩

/-! ### Partial-failure aggregation -/

/-- A string is empty exactly when its data is the empty list (`≠` form). -/
theorem string_ne_empty_of_data {s : String} (h : s.data ≠ []) : s ≠ "" := by
  intro h0
  subst h0
  exact h rfl

/-- Appending to a non-empty string stays non-empty. -/
theorem append_ne_empty_left {a : String} (b : String) (ha : a ≠ "") :
    a ++ b ≠ "" := by
  intro h
  apply ha
  have hd : a.data ++ b.data = [] := by
    have := congrArg String.data h
    rwa [String.data_append] at this
  exact (mk_eq_empty_iff a.data).mpr (List.append_eq_nil.mp hd).1

/-- Joining non-empty strings yields the empty string only for the empty
list. -/
theorem joinSep_eq_empty_iff (sep : String) :
    ∀ l : List String, (∀ t ∈ l, t ≠ "") → (joinSep sep l = "" ↔ l = []) := by
  intro l hl
  cases l with
  | nil => simp [joinSep]
  | cons a rest =>
    have ha : a ≠ "" := hl a (List.mem_cons_self a _)
    constructor
    · intro h
      exfalso
      cases rest with
      | nil => exact ha h
      | cons b rest' =>
        exact append_ne_empty_left (joinSep sep (b :: rest'))
          (append_ne_empty_left sep ha) h
    · intro h
      exact absurd h (by simp)

/-- Every kept text is non-empty. -/
theorem keptTexts_ne_empty (results : List (Option String)) :
    ∀ t ∈ keptTexts results, t ≠ "" := by
  intro t ht
  obtain ⟨r, _, hr⟩ := List.mem_filterMap.mp ht
  cases r with
  | none => exact Option.noConfusion hr
  | some u =>
    have hr' : (if u ≠ "" then some u else none) = some t := hr
    by_cases hu : u ≠ ""
    · rw [if_pos hu] at hr'
      injection hr' with hr''
      rw [← hr'']
      exact hu
    · rw [if_neg hu] at hr'
      exact Option.noConfusion hr'

/-- The kept texts are empty exactly when every unit failed or yielded no
text. -/
theorem keptTexts_eq_nil_iff (results : List (Option String)) :
    keptTexts results = [] ↔ ∀ r ∈ results, ∀ t, r = some t → t = "" := by
  unfold keptTexts
  rw [List.filterMap_eq_nil_iff]
  constructor
  · intro h r hr t hrt
    subst hrt
    have h2 : (if t ≠ "" then some t else none) = none := h _ hr
    by_cases ht : t ≠ ""
    · rw [if_pos ht] at h2
      exact Option.noConfusion h2
    · exact not_not.mp ht
  · intro h r hr
    cases r with
    | none => rfl
    | some u =>
      have hu : u = "" := h _ hr u rfl
      subst hu
      show (if ("" : String) ≠ "" then some ("" : String) else none) = none
      rw [if_neg (by simp)]

/-- The aggregation written (but unreachable) at lines 592-617 would
implement exactly the spec's contract: a failed or empty unit is skipped
(contributing nothing to the joined text) and does not abort; surviving
texts are joined in original task order; the confidence is never `"high"`;
empty text (with confidence `"low"`) arises exactly when every unit failed
or yielded no text, and `"medium"` otherwise. -/
theorem pdf_partial_failure_aggregation (results : List (Option String)) :
    (ocr_pdf_images_aggregate results).text =
      joinSep "\\n" (keptTexts results) ∧
    (ocr_pdf_images_aggregate results).confidence ≠ "high" ∧
    ((ocr_pdf_images_aggregate results).text = "" ↔
      ∀ r ∈ results, ∀ t, r = some t → t = "") ∧
    ((ocr_pdf_images_aggregate results).text ≠ "" →
      (ocr_pdf_images_aggregate results).confidence = "medium") := by
  unfold ocr_pdf_images_aggregate
  by_cases hres : results = []
  · subst hres
    rw [if_pos rfl]
    refine ⟨rfl, by decide, ?_, ?_⟩
    · constructor
      · intro _ r hr
        exact absurd hr (List.not_mem_nil r)
      · intro _
        rfl
    · intro h
      exact absurd rfl h
  · rw [if_neg hres]
    refine ⟨rfl, ?_, ?_, ?_⟩
    · show (if joinSep "\\n" (keptTexts results) ≠ "" then "medium" else "low") ≠
        ("high" : String)
      by_cases hc : joinSep "\\n" (keptTexts results) ≠ ""
      · rw [if_pos hc]
        decide
      · rw [if_neg hc]
        decide
    · show joinSep "\\n" (keptTexts results) = "" ↔
        ∀ r ∈ results, ∀ t, r = some t → t = ""
      rw [joinSep_eq_empty_iff "\\n" (keptTexts results) (keptTexts_ne_empty results)]
      exact keptTexts_eq_nil_iff results
    · intro h
      have h' : joinSep "\\n" (keptTexts results) ≠ "" := h
      show (if joinSep "\\n" (keptTexts results) ≠ "" then "medium" else "low") =
        ("medium" : String)
      rw [if_pos h']

/-- Concrete instance of `pdf_partial_failure_aggregation`: a three-unit
document whose second unit failed would yield the first and third texts
joined in order, with confidence `"medium"` — had the aggregation been
reachable. -/
theorem pdf_partial_failure_aggregation_eval :
    (ocr_pdf_images_aggregate [some "p1", none, some "p3"]).text = "p1\\np3" ∧
    (ocr_pdf_images_aggregate [some "p1", none, some "p3"]).confidence =
      "medium" := by
  have h := pdf_partial_failure_aggregation [some "p1", none, some "p3"]
  exact ⟨h.1.trans (by decide), h.2.2.2 (by decide)⟩

/-- Claim C7 (code bug): the partial-failure aggregation never runs.  The
only `import fitz` is local to `extract_text_from_pdf`, so line 578 of
`_ocr_pdf_images` raises `NameError` for every document whose first ten
pages contain any image, and the caller's `except` handler reports empty
text with confidence `"error"`; only an image-free document returns
normally, with confidence `"low"`.  Per-image units therefore never
contribute texts, nothing is joined, and `"medium"` is unreachable —
contrary to the claim, a single image unit aborts the whole document. -/
theorem pdf_images_abort_eval :
    (∀ imagesPerPage : List Nat,
      (imagesPerPage.take 10).any (fun n => 0 < n) = true →
        ocr_pdf_images imagesPerPage =
          Except.error "NameError: name 'fitz' is not defined" ∧
        extract_text_from_pdf_images_branch imagesPerPage = ⟨"", "error"⟩) ∧
    ocr_pdf_images [] = Except.ok ⟨"", "low"⟩ ∧
    extract_text_from_pdf_images_branch [] = ⟨"", "low"⟩ := by
  refine ⟨?_, rfl, rfl⟩
  intro imagesPerPage h
  unfold extract_text_from_pdf_images_branch ocr_pdf_images
  rw [if_pos h]
  exact ⟨rfl, rfl⟩

/-- Witness for `pdf_images_abort_eval` at a three-page document with one
image per page (the spec's partial-failure scenario): the whole call
reports `"error"`. -/
theorem pdf_images_abort_eval_witness :
    ocr_pdf_images [1, 1, 1] =
      Except.error "NameError: name 'fitz' is not defined" ∧
    extract_text_from_pdf_images_branch [1, 1, 1] = ⟨"", "error"⟩ :=
  pdf_images_abort_eval.1 [1, 1, 1] (by decide)

/-! ### Title split -/

/-- Invariant of the best-split search loop of `format_titles_and_paragraphs`:
the fold result is the initial pair or carries the (earliest, strictly
improving) maximal score among the visited positions; its score component
never decreases and dominates every visited position's score. -/
theorem foldl_bestStep_spec (ws : List String) :
    ∀ (idx : List Nat) (b : Int × Int),
      (idx.foldl (bestStep ws) b = b ∨
        ∃ i ∈ idx, idx.foldl (bestStep ws) b = ((scoreAt ws i : Int), (i : Int))) ∧
      b.1 ≤ (idx.foldl (bestStep ws) b).1 ∧
      ∀ i ∈ idx, (scoreAt ws i : Int) ≤ (idx.foldl (bestStep ws) b).1 := by
  intro idx
  induction idx with
  | nil =>
    intro b
    exact ⟨Or.inl rfl, le_refl _, by simp⟩
  | cons j rest ih =>
    intro b
    rw [List.foldl_cons]
    obtain ⟨h1, h2, h3⟩ := ih (bestStep ws b j)
    have hstep1 : b.1 ≤ (bestStep ws b j).1 := by
      unfold bestStep
      split
      · exact le_of_lt (by assumption)
      · exact le_refl _
    have hstepj : (scoreAt ws j : Int) ≤ (bestStep ws b j).1 := by
      unfold bestStep
      split
      · exact le_refl _
      · exact le_of_not_lt (by assumption)
    refine ⟨?_, le_trans hstep1 h2, ?_⟩
    · cases h1 with
      | inl h =>
        rw [h]
        unfold bestStep
        split
        · exact Or.inr ⟨j, List.mem_cons_self j rest, rfl⟩
        · exact Or.inl rfl
      | inr h =>
        obtain ⟨i, hi, hEq⟩ := h
        exact Or.inr ⟨i, List.mem_cons_of_mem j hi, hEq⟩
    · intro i hi
      rcases List.mem_cons.mp hi with rfl | hi'
      · exact le_trans hstepj h2
      · exact h3 i hi'

/-- With more than 8 words, the candidate split positions are exactly
3 to 7. -/
theorem candRange_gt8 {ws : List String} (h : 8 < ws.length) :
    candRange ws = [3, 4, 5, 6, 7] := by
  unfold candRange
  rw [Nat.min_eq_left (le_of_lt h)]
  rfl

/-- Claim C6 (confirmed): with at most 8 words the structural formatter
returns the input unchanged except for possibly appending a period; with
more than 8 words it either makes no split (when every candidate position
3-7 scores below 3) or splits at a position 3-7 whose score is at least 3
and maximal among all candidate positions. -/
theorem title_split_rule (text : String) :
    ((pyWords text).length ≤ 8 →
      format_titles_and_paragraphs text = text ∨
        format_titles_and_paragraphs text = text ++ ".") ∧
    (8 < (pyWords text).length →
      ((format_titles_and_paragraphs text = text ∨
          format_titles_and_paragraphs text = text ++ ".") ∧
        (∀ j, 3 ≤ j → j ≤ 7 → scoreAt (pyWords text) j < 3)) ∨
      ∃ i, 3 ≤ i ∧ i ≤ 7 ∧ 3 ≤ scoreAt (pyWords text) i ∧
        (∀ j, 3 ≤ j → j ≤ 7 →
          scoreAt (pyWords text) j ≤ scoreAt (pyWords text) i) ∧
        format_titles_and_paragraphs text = spliceAt (pyWords text) i) := by
  constructor
  · intro hle
    unfold format_titles_and_paragraphs
    split
    · exact Or.inl rfl
    · rw [if_neg (Nat.not_lt.mpr hle)]
      by_cases hE : (!endsWithTerm text) = true
      · rw [if_pos hE]
        exact Or.inr rfl
      · rw [if_neg hE]
        exact Or.inl rfl
  · intro hgt
    have htext : text ≠ "" := by
      intro h0
      rw [h0] at hgt
      exact absurd hgt (by decide)
    unfold format_titles_and_paragraphs
    rw [if_neg htext, if_pos hgt]
    have hco : candRange (pyWords text) = [3, 4, 5, 6, 7] := candRange_gt8 hgt
    obtain ⟨h1, h2, h3⟩ :=
      foldl_bestStep_spec (pyWords text) (candRange (pyWords text)) (0, -1)
    have hsb : (candRange (pyWords text)).foldl (bestStep (pyWords text)) (0, -1) =
        searchBest (pyWords text) := rfl
    rw [hsb] at h1 h2 h3
    by_cases hacc : 0 < (searchBest (pyWords text)).2 ∧
        3 ≤ (searchBest (pyWords text)).1
    · rw [if_pos hacc]
      right
      cases h1 with
      | inl hEq =>
        exfalso
        rw [hEq] at hacc
        exact absurd hacc.1 (by decide)
      | inr h =>
        obtain ⟨i, hi, hEq⟩ := h
        have hi5 : i = 3 ∨ i = 4 ∨ i = 5 ∨ i = 6 ∨ i = 7 := by
          rw [hco] at hi
          simpa using hi
        have hib : 3 ≤ i ∧ i ≤ 7 := by omega
        have hsc : 3 ≤ scoreAt (pyWords text) i := by
          have h4 := hacc.2
          rw [hEq] at h4
          have h5 : (3 : Int) ≤ (scoreAt (pyWords text) i : Int) := h4
          exact_mod_cast h5
        refine ⟨i, hib.1, hib.2, hsc, ?_, ?_⟩
        · intro j hj1 hj2
          have hjmem : j ∈ candRange (pyWords text) := by
            rw [hco]
            interval_cases j <;> decide
          have h4 := h3 j hjmem
          rw [hEq] at h4
          have h5 : (scoreAt (pyWords text) j : Int) ≤
            (scoreAt (pyWords text) i : Int) := h4
          exact_mod_cast h5
        · rw [hEq]
          norm_num
    · rw [if_neg hacc]
      left
      constructor
      · by_cases hE : (!endsWithTerm text) = true
        · rw [if_pos hE]
          exact Or.inr rfl
        · rw [if_neg hE]
          exact Or.inl rfl
      · intro j hj1 hj2
        have hjmem : j ∈ candRange (pyWords text) := by
          rw [hco]
          interval_cases j <;> decide
        have hj := h3 j hjmem
        cases h1 with
        | inl hEq =>
          rw [hEq] at hj
          have : (scoreAt (pyWords text) j : Int) ≤ 0 := hj
          omega
        | inr h =>
          obtain ⟨i, hi, hEq⟩ := h
          have hi3 : (3 : Nat) ≤ i := by
            rw [hco] at hi
            have : i = 3 ∨ i = 4 ∨ i = 5 ∨ i = 6 ∨ i = 7 := by simpa using hi
            omega
          have hlt3 : (searchBest (pyWords text)).1 < 3 := by
            rcases not_and_or.mp hacc with hn | hn
            · exfalso
              apply hn
              rw [hEq]
              show (0 : Int) < (i : Int)
              exact_mod_cast (show 0 < i by omega)
            · exact lt_of_not_le hn
          have := lt_of_le_of_lt hj hlt3
          exact_mod_cast this

/-- Witness for `title_split_rule` at the spec's ten-word example, which
does receive a split. -/
theorem title_split_rule_witness :
    8 < (pyWords
      "supported models api supports powerful multimodal models for vision tasks").length ∧
    (((format_titles_and_paragraphs
        "supported models api supports powerful multimodal models for vision tasks" =
          "supported models api supports powerful multimodal models for vision tasks" ∨
      format_titles_and_paragraphs
        "supported models api supports powerful multimodal models for vision tasks" =
          "supported models api supports powerful multimodal models for vision tasks" ++ ".") ∧
      (∀ j, 3 ≤ j → j ≤ 7 → scoreAt (pyWords
        "supported models api supports powerful multimodal models for vision tasks") j < 3)) ∨
    ∃ i, 3 ≤ i ∧ i ≤ 7 ∧ 3 ≤ scoreAt (pyWords
        "supported models api supports powerful multimodal models for vision tasks") i ∧
      (∀ j, 3 ≤ j → j ≤ 7 → scoreAt (pyWords
        "supported models api supports powerful multimodal models for vision tasks") j ≤
          scoreAt (pyWords
        "supported models api supports powerful multimodal models for vision tasks") i) ∧
      format_titles_and_paragraphs
        "supported models api supports powerful multimodal models for vision tasks" =
          spliceAt (pyWords
        "supported models api supports powerful multimodal models for vision tasks") i) :=
  ⟨by decide,
    (title_split_rule
      "supported models api supports powerful multimodal models for vision tasks").2
      (by decide)⟩

end UltimateOCR

namespace OCRService

open UltimateOCR (pyIsSpace stripList pyStrip ws_char_cases mk_eq_empty_iff)

/-! ### Candidate scoring and selection -/

/-- The score is never negative. -/
theorem candidateScore_nonneg (t : String) : 0 ≤ candidateScore t := by
  rw [candidateScore, Rat.divInt_eq_div]
  positivity

/-- A candidate with an alphanumeric character has a positive score. -/
theorem candidateScore_pos {t : String} (h : 0 < alnumCount t) :
    0 < candidateScore t := by
  rw [candidateScore, Rat.divInt_eq_div]
  have h1 : (0 : ℚ) < ((alnumCount t : ℤ) : ℚ) := by exact_mod_cast h
  have h2 : (0 : ℚ) < ((Nat.max 1 t.length : ℤ) : ℚ) := by
    exact_mod_cast Nat.lt_of_lt_of_le Nat.zero_lt_one (Nat.le_max_left 1 t.length)
  have := div_pos h1 h2
  positivity

/-- A candidate without alphanumeric characters scores zero. -/
theorem candidateScore_zero {t : String} (h : alnumCount t = 0) :
    candidateScore t = 0 := by
  rw [candidateScore, h]
  norm_num

/-- Alphanumeric characters are not whitespace. -/
theorem alnum_not_ws {c : Char} (h : c.isAlphanum = true) :
    pyIsSpace c = false := by
  cases hb : pyIsSpace c with
  | false => rfl
  | true =>
    rcases ws_char_cases hb with rfl | rfl | rfl | rfl | rfl | rfl <;>
      exact absurd h (by decide)

/-- Stripping cannot erase a non-whitespace character. -/
theorem stripList_ne_nil {l : List Char} {c : Char} (hc : c ∈ l)
    (hcw : pyIsSpace c = false) : stripList l ≠ [] := by
  intro h
  unfold stripList at h
  rw [List.reverse_eq_nil_iff] at h
  have h2 : ∀ x ∈ (l.dropWhile pyIsSpace).reverse, pyIsSpace x = true :=
    List.dropWhile_eq_nil_iff.mp h
  have hcl : c ∈ l.dropWhile pyIsSpace := by
    have hsplit := List.takeWhile_append_dropWhile (p := pyIsSpace) (l := l)
    rcases List.mem_append.mp (hsplit ▸ hc) with h' | h'
    · exact absurd (List.mem_takeWhile_imp h') (by rw [hcw]; simp)
    · exact h'
  exact absurd (h2 c (List.mem_reverse.mpr hcl)) (by rw [hcw]; simp)

/-- A text with an alphanumeric character does not strip to the empty
string. -/
theorem pyStrip_ne_empty_of_alnum {t : String} (h : 0 < alnumCount t) :
    pyStrip t ≠ "" := by
  obtain ⟨c, hc, hca⟩ := List.countP_pos_iff.mp h
  intro hEq
  have hdata : stripList t.data = [] := (mk_eq_empty_iff (stripList t.data)).mp hEq
  exact stripList_ne_nil hc (alnum_not_ws hca) hdata

/-- Invariant of the scoring loop: the fold result is the initial pair, or
carries a candidate whose score strictly beat the initial score; its score
never decreases and dominates every non-empty candidate's score. -/
theorem selectLoop_spec :
    ∀ (cands : List String) (b : String × ℚ),
      (cands.foldl selectStep b = b ∨
        ∃ t ∈ cands, t ≠ "" ∧
          cands.foldl selectStep b = (t, candidateScore t) ∧
          b.2 < candidateScore t) ∧
      b.2 ≤ (cands.foldl selectStep b).2 ∧
      ∀ t ∈ cands, t ≠ "" → candidateScore t ≤ (cands.foldl selectStep b).2 := by
  intro cands
  induction cands with
  | nil =>
    intro b
    exact ⟨Or.inl rfl, le_refl _, by simp⟩
  | cons u rest ih =>
    intro b
    rw [List.foldl_cons]
    obtain ⟨h1, h2, h3⟩ := ih (selectStep b u)
    have hstep1 : b.2 ≤ (selectStep b u).2 := by
      unfold selectStep
      split
      · split
        · exact le_of_lt (by assumption)
        · exact le_refl _
      · exact le_refl _
    have hstepu : u ≠ "" → candidateScore u ≤ (selectStep b u).2 := by
      intro hne
      unfold selectStep
      rw [if_pos hne]
      split
      · exact le_refl _
      · exact le_of_not_lt (by assumption)
    refine ⟨?_, le_trans hstep1 h2, ?_⟩
    · cases h1 with
      | inl h =>
        rw [h]
        unfold selectStep
        by_cases hne : u ≠ ""
        · rw [if_pos hne]
          split
          · exact Or.inr ⟨u, List.mem_cons_self u rest, hne, rfl, by assumption⟩
          · exact Or.inl rfl
        · rw [if_neg hne]
          exact Or.inl rfl
      | inr h =>
        obtain ⟨t, ht, htne, hEq, hlt⟩ := h
        exact Or.inr ⟨t, List.mem_cons_of_mem u ht, htne, hEq,
          lt_of_le_of_lt hstep1 hlt⟩
    · intro t ht htne
      rcases List.mem_cons.mp ht with rfl | ht'
      · exact le_trans (hstepu htne) h2
      · exact h3 t ht' htne

/-- Claim C5 (amended): the selection loop returns a failure signal exactly
when no candidate contains an alphanumeric character (in particular when
all candidates are empty); otherwise the selected candidate is one of the
candidates, contains an alphanumeric character, and its density score
`100 * alnum / length` dominates every candidate's score. -/
theorem select_best_spec (cands : List String) :
    (select_best cands = none ↔ ∀ t ∈ cands, alnumCount t = 0) ∧
    ∀ bt, select_best cands = some bt →
      bt ∈ cands ∧ 0 < alnumCount bt ∧
        ∀ t ∈ cands, candidateScore t ≤ candidateScore bt := by
  obtain ⟨h1, h2, h3⟩ := selectLoop_spec cands ("", 0)
  have hsl : cands.foldl selectStep ("", 0) = selectLoop cands := rfl
  rw [hsl] at h1 h2 h3
  constructor
  · constructor
    · intro hnone t ht
      by_contra hpos0
      have hpos : 0 < alnumCount t := Nat.pos_of_ne_zero hpos0
      have htne : t ≠ "" := by
        intro h0
        rw [h0] at hpos
        exact absurd hpos (by decide)
      have hpos2 : 0 < (selectLoop cands).2 :=
        lt_of_lt_of_le (candidateScore_pos hpos) (h3 t ht htne)
      cases h1 with
      | inl hEq =>
        rw [hEq] at hpos2
        exact absurd hpos2 (by norm_num)
      | inr h =>
        obtain ⟨u, hu, hune, hEq, hlt⟩ := h
        unfold select_best at hnone
        have hnone' : (if pyStrip (selectLoop cands).1 = "" then none
            else some (selectLoop cands).1) = (none : Option String) := hnone
        split at hnone'
        · have hstrip : pyStrip (selectLoop cands).1 = "" := by assumption
          rw [hEq] at hstrip
          have hupos : 0 < alnumCount u := by
            by_contra h0
            rw [candidateScore_zero (Nat.eq_zero_of_not_pos h0)] at hlt
            exact absurd hlt (by norm_num)
          exact pyStrip_ne_empty_of_alnum hupos hstrip
        · exact Option.noConfusion hnone'
    · intro hall
      have hloop : selectLoop cands = ("", 0) := by
        cases h1 with
        | inl hEq => exact hEq
        | inr h =>
          obtain ⟨u, hu, hune, hEq, hlt⟩ := h
          rw [candidateScore_zero (hall u hu)] at hlt
          exact absurd hlt (by norm_num)
      unfold select_best
      rw [hloop]
      rfl
  · intro bt hbt
    unfold select_best at hbt
    have hbt2 : (if pyStrip (selectLoop cands).1 = "" then none
        else some (selectLoop cands).1) = some bt := hbt
    split at hbt2
    · exact Option.noConfusion hbt2
    · injection hbt2 with hbt'
      subst hbt'
      have hstripne : ¬pyStrip (selectLoop cands).1 = "" := by assumption
      cases h1 with
      | inl hEq =>
        exfalso
        rw [hEq] at hstripne
        exact hstripne rfl
      | inr h =>
        obtain ⟨u, hu, hune, hEq, hlt⟩ := h
        have hu1 : (selectLoop cands).1 = u := by rw [hEq]
        have hu2 : (selectLoop cands).2 = candidateScore u := by rw [hEq]
        rw [hu1]
        refine ⟨hu, ?_, ?_⟩
        · by_contra h0
          rw [candidateScore_zero (Nat.eq_zero_of_not_pos h0)] at hlt
          exact absurd hlt (by norm_num)
        · intro t ht
          by_cases htne : t = ""
          · rw [htne, candidateScore_zero (show alnumCount "" = 0 from rfl), ← hu2]
            exact h2
          · rw [← hu2]
            exact h3 t ht htne

/-- Witness for `select_best_spec`: among an empty candidate, a
punctuation-only candidate and `"ab"`, the selection returns `"ab"`, a
member with positive alphanumeric count and maximal density score. -/
theorem select_best_spec_witness :
    "ab" ∈ ["", "!!!", "ab"] ∧ 0 < alnumCount "ab" ∧
      ∀ t ∈ ["", "!!!", "ab"], candidateScore t ≤ candidateScore "ab" :=
  (select_best_spec ["", "!!!", "ab"]).2 "ab" (by decide)

/-- Claim C5 (counterexample): the implemented score is an alphanumeric
density, not the claimed `alnum - penalty * disallowed`: between `"ab"`
(2 alphanumeric characters, no disallowed characters) and
`"abc def ghi"` (9 alphanumeric characters, no disallowed characters)
the code selects `"ab"`, while the claimed formula — at the spec's
suggested weight 1.2, and indeed at any weight, since both penalty counts
are zero — ranks `"abc def ghi"` strictly higher. -/
theorem scoring_formula_cex :
    select_best ["ab", "abc def ghi"] = some "ab" ∧
    specClaimScore (6/5) "ab" < specClaimScore (6/5) "abc def ghi" ∧
    (("abc def ghi" : String).data.countP (fun c => !specAllowedChar c)) = 0 ∧
    (("ab" : String).data.countP (fun c => !specAllowedChar c)) = 0 ∧
    alnumCount "ab" < alnumCount "abc def ghi" := by
  refine ⟨by decide, by decide, by decide, by decide, by decide⟩

end OCRService
